import Mathlib

/-!
# `TBlockItem` (ydb/library/yql/public/udf/arrow/block_item.h)

A shallow embedding of the 16-byte value envelope `NYql::NUdf::TBlockItem` and
of its union `TRaw`, followed by theorems about its constructors, accessors and
optional-depth codec.

Memory model.  The union `TRaw` is sixteen bytes.  Its member `Halfs[2]` views
them as two 64-bit words; every other member is a field lying wholly inside one
of the two words.  A word is a natural number below `2 ^ 64`, and a field of
`width` bytes at byte offset `off` inside a word is read and written in
little-endian order by `readBytes` / `writeBytes`.  Unsigned machine arithmetic
is written with an explicit `% 2 ^ 64`.
-/

namespace NYql.NUdf

/-! ## Bytes inside a 64-bit word (little-endian) -/

/-- The `width` bytes of the word `w` that start at byte offset `off`, read as
an unsigned little-endian number. -/
def readBytes (w off width : Nat) : Nat :=
  w / 2 ^ (8 * off) % 2 ^ (8 * width)

/-- The word `w` with the `width` bytes that start at byte offset `off`
replaced by the low `width` bytes of `v`; all other bytes are kept. -/
def writeBytes (w off width v : Nat) : Nat :=
  w % 2 ^ (8 * off) + v % 2 ^ (8 * width) * 2 ^ (8 * off)
    + w / 2 ^ (8 * (off + width)) * 2 ^ (8 * (off + width))

/-! ## External collaborators of the header -/

/-- Modelled from the spec: the macro `PRIMITIVE_VALUE_TYPES` of
`udf_data_type.h` is not part of the sources.  It enumerates the fixed, ordered
list of primitive scalar types: the 8/16/32/64-bit signed and unsigned integers,
then `float` and `double`. -/
inductive EPrim where
  | i8 | ui8 | i16 | ui16 | i32 | ui32 | i64 | ui64 | float | double
  deriving DecidableEq, Repr

/-- The `sizeof` of a primitive scalar type, in bytes. -/
def EPrim.size : EPrim → Nat
  | .i8 => 1 | .ui8 => 1
  | .i16 => 2 | .ui16 => 2
  | .i32 => 4 | .ui32 => 4
  | .i64 => 8 | .ui64 => 8
  | .float => 4 | .double => 8

/-- Whether a value of the type is read as a two's-complement signed integer.
`float` and `double` values are taken as their bit patterns. -/
def EPrim.signed : EPrim → Bool
  | .i8 => true | .i16 => true | .i32 => true | .i64 => true
  | _ => false

/-- The values of a primitive scalar type: the integers of its range; for
`float` and `double`, the bit patterns of its width. -/
def EPrim.InRange (T : EPrim) (v : Int) : Prop :=
  if T.signed then -(2 ^ (8 * T.size - 1) : Int) ≤ v ∧ v < 2 ^ (8 * T.size - 1)
  else 0 ≤ v ∧ v < 2 ^ (8 * T.size)

instance (T : EPrim) (v : Int) : Decidable (T.InRange v) := by
  unfold EPrim.InRange; exact inferInstance

/-- The object representation of the value `v` of type `T`, as an unsigned
number of `T.size` bytes (two's complement for the signed types). -/
def EPrim.toBits (T : EPrim) (v : Int) : Nat :=
  (v % 2 ^ (8 * T.size)).toNat

/-- The value of type `T` whose object representation is `b`. -/
def EPrim.ofBits (T : EPrim) (b : Nat) : Int :=
  if T.signed && decide (2 ^ (8 * T.size - 1) ≤ b) then (b : Int) - 2 ^ (8 * T.size)
  else (b : Int)

/-- Modelled from the spec: the macro `Y_DEBUG_ABORT_UNLESS` is not part of the
sources.  Every precondition is enforced only as a debug-build assertion that
aborts the process when violated; in optimized builds the check is compiled
out.  `debug` is the build mode, `none` is the abort. -/
def Y_DEBUG_ABORT_UNLESS (debug cond : Bool) : Option Unit :=
  if debug && !cond then none else some ()

/-- Modelled from the spec: the class `TStringRef` of `udf_string_ref.h` is not
part of the sources.  A borrowed string view: a pointer (`Data()`) and a 32-bit
length (`Size()`). -/
structure TStringRef where
  Data : Nat
  Size : Nat
  deriving DecidableEq, Repr

/-! ## `TBlockItem::EMarkers` -/

/-- The scoped enumeration `enum class EMarkers : ui8`: a value of the
underlying type `ui8`, with two named enumerators. -/
structure EMarkers where
  val : Nat
  deriving DecidableEq, Repr

/-- `EMarkers::Empty = 0`. -/
def EMarkers.Empty : EMarkers := ⟨0⟩

/-- `EMarkers::Present = 1`. -/
def EMarkers.Present : EMarkers := ⟨1⟩

/-! ## `TBlockItem::TRaw` -/

/-- The union `TRaw`, seen through its member `ui64 Halfs[2]`: `Halfs0` is
bytes 0..7 and `Halfs1` is bytes 8..15 of the envelope. -/
structure TRaw where
  Halfs0 : Nat
  Halfs1 : Nat
  lt0 : Halfs0 < 2 ^ 64
  lt1 : Halfs1 < 2 ^ 64
  deriving DecidableEq

namespace TRaw

/-- Store two values into `Halfs[0]` and `Halfs[1]` (a store into a `ui64`
keeps the low 64 bits). -/
def ofHalfs (h0 h1 : Nat) : TRaw :=
  ⟨h0 % 2 ^ 64, h1 % 2 ^ 64, Nat.mod_lt _ (Nat.two_pow_pos 64), Nat.mod_lt _ (Nat.two_pow_pos 64)⟩

/-- The default member initialiser `ui64 Halfs[2] = {0, 0}`. -/
def init : TRaw := ofHalfs 0 0

/-- Field `Simple.<type>_` of a primitive scalar type `T`: the first
`sizeof(T)` bytes of the envelope (first member of the anonymous union at
offset 0 of `Simple`). -/
def Simple.prim (T : EPrim) (r : TRaw) : Nat := readBytes r.Halfs0 0 T.size

/-- Assignment to `Simple.<type>_`. -/
def Simple.setPrim (T : EPrim) (r : TRaw) (v : Nat) : TRaw :=
  ofHalfs (writeBytes r.Halfs0 0 T.size v) r.Halfs1

/-- Field `ui8 Simple.bool_`: byte 0. -/
def Simple.bool_ (r : TRaw) : Nat := readBytes r.Halfs0 0 1

/-- Assignment to `Simple.bool_`. -/
def Simple.setBool_ (r : TRaw) (v : Nat) : TRaw :=
  ofHalfs (writeBytes r.Halfs0 0 1 v) r.Halfs1

/-- Field `ui64 Simple.Count`: bytes 0..7. -/
def Simple.Count (r : TRaw) : Nat := readBytes r.Halfs0 0 8

/-- Assignment to `Simple.Count`. -/
def Simple.setCount (r : TRaw) (v : Nat) : TRaw :=
  ofHalfs (writeBytes r.Halfs0 0 8 v) r.Halfs1

/-- Field `ui64 Simple.Pad`: bytes 8..15. -/
def Simple.Pad (r : TRaw) : Nat := readBytes r.Halfs1 0 8

/-- Field `ui8 Simple.Reserved[7]`: bytes 8..14, read as one number. -/
def Simple.Reserved (r : TRaw) : Nat := readBytes r.Halfs1 0 7

/-- Field `ui8 Simple.Meta`: byte 15, after the seven `Reserved` bytes. -/
def Simple.Meta (r : TRaw) : Nat := readBytes r.Halfs1 7 1

/-- Assignment to `Simple.Meta`. -/
def Simple.setMeta (r : TRaw) (v : Nat) : TRaw :=
  ofHalfs r.Halfs0 (writeBytes r.Halfs1 7 1 v)

/-- Field `const char* String.Value`: bytes 0..7. -/
def String.Value (r : TRaw) : Nat := readBytes r.Halfs0 0 8

/-- Assignment to `String.Value`. -/
def String.setValue (r : TRaw) (v : Nat) : TRaw :=
  ofHalfs (writeBytes r.Halfs0 0 8 v) r.Halfs1

/-- Field `ui32 String.Size`: bytes 8..11. -/
def String.Size (r : TRaw) : Nat := readBytes r.Halfs1 0 4

/-- Assignment to `String.Size`. -/
def String.setSize (r : TRaw) (v : Nat) : TRaw :=
  ofHalfs r.Halfs0 (writeBytes r.Halfs1 0 4 v)

/-- Field `const TBlockItem* Tuple.Value`: bytes 0..7. -/
def Tuple.Value (r : TRaw) : Nat := readBytes r.Halfs0 0 8

/-- Assignment to `Tuple.Value`. -/
def Tuple.setValue (r : TRaw) (v : Nat) : TRaw :=
  ofHalfs (writeBytes r.Halfs0 0 8 v) r.Halfs1

/-- `EMarkers GetMarkers() const { return static_cast<EMarkers>(Simple.Meta); }` -/
def GetMarkers (r : TRaw) : EMarkers := ⟨Simple.Meta r⟩

/-- `explicit operator bool() const { return Simple.Meta | Simple.Count; }` -/
def toBool (r : TRaw) : Bool := (Simple.Meta r ||| Simple.Count r) != 0

end TRaw

/-! ## `TBlockItem` -/

/-- The class `TBlockItem`: its only data member is `TRaw Raw`. -/
structure TBlockItem where
  Raw : TRaw
  deriving DecidableEq

/-- The memory the tuple pointers point into: `mem a` is the envelope stored
at address `a`, if one is. -/
abbrev Mem := Nat → Option TBlockItem

namespace TBlockItem

/-- `TBlockItem() noexcept = default;` -/
def ctor : TBlockItem := ⟨TRaw.init⟩

/-- `VALUE_CONSTR(xType)`: `Raw.Simple.xType##_ = value; Raw.Simple.Meta = Present;` -/
def ctorPrim (T : EPrim) (value : Int) : TBlockItem :=
  let raw := TRaw.Simple.setPrim T TRaw.init (T.toBits value)
  ⟨TRaw.Simple.setMeta raw EMarkers.Present.val⟩

/-- `TBlockItem(bool value)`: `Raw.Simple.bool_ = value ? 1 : 0; Raw.Simple.Meta = Present;` -/
def ctorBool (value : Bool) : TBlockItem :=
  let raw := TRaw.Simple.setBool_ TRaw.init (if value then 1 else 0)
  ⟨TRaw.Simple.setMeta raw EMarkers.Present.val⟩

/-- `TBlockItem(TStringRef value)`: `Raw.String.Value = value.Data();
Raw.String.Size = value.Size(); Raw.Simple.Meta = Present;` -/
def ctorString (value : TStringRef) : TBlockItem :=
  let raw := TRaw.String.setValue TRaw.init value.Data
  let raw := TRaw.String.setSize raw value.Size
  ⟨TRaw.Simple.setMeta raw EMarkers.Present.val⟩

/-- `TBlockItem(const TBlockItem* tupleItems)`: `Raw.Tuple.Value = tupleItems;
Raw.Simple.Meta = Present;` -/
def ctorTuple (tupleItems : Nat) : TBlockItem :=
  let raw := TRaw.Tuple.setValue TRaw.init tupleItems
  ⟨TRaw.Simple.setMeta raw EMarkers.Present.val⟩

/-- `TBlockItem(ui64 low, ui64 high)`: `Raw.Halfs[0] = low; Raw.Halfs[1] = high;` -/
def ctorHalfs (low high : Nat) : TBlockItem :=
  ⟨TRaw.ofHalfs low high⟩

/-- `ui64 Low() const { return Raw.Halfs[0]; }` -/
def Low (self : TBlockItem) : Nat := self.Raw.Halfs0

/-- `ui64 High() const { return Raw.Halfs[1]; }` -/
def High (self : TBlockItem) : Nat := self.Raw.Halfs1

/-- `VALUE_AS(xType)`: assert the marker, `return Raw.Simple.xType##_;` -/
def As (debug : Bool) (T : EPrim) (self : TBlockItem) : Option Int := do
  Y_DEBUG_ABORT_UNLESS debug (self.Raw.GetMarkers == EMarkers.Present)
  pure (T.ofBits (TRaw.Simple.prim T self.Raw))

/-- `VALUE_GET(xType)`: assert the marker, `return Raw.Simple.xType##_;` -/
def Get (debug : Bool) (T : EPrim) (self : TBlockItem) : Option Int := do
  Y_DEBUG_ABORT_UNLESS debug (self.Raw.GetMarkers == EMarkers.Present)
  pure (T.ofBits (TRaw.Simple.prim T self.Raw))

/-- `VALUE_AS(bool)`: assert the marker, `return Raw.Simple.bool_;` (a `ui8`
converted to `bool`). -/
def AsBool (debug : Bool) (self : TBlockItem) : Option Bool := do
  Y_DEBUG_ABORT_UNLESS debug (self.Raw.GetMarkers == EMarkers.Present)
  pure (TRaw.Simple.bool_ self.Raw != 0)

/-- `VALUE_GET(bool)`: assert the marker, `return Raw.Simple.bool_;` (a `ui8`
converted to `bool`). -/
def GetBool (debug : Bool) (self : TBlockItem) : Option Bool := do
  Y_DEBUG_ABORT_UNLESS debug (self.Raw.GetMarkers == EMarkers.Present)
  pure (TRaw.Simple.bool_ self.Raw != 0)

/-- `AsTuple()`: assert the marker, `return Raw.Tuple.Value;` -/
def AsTuple (debug : Bool) (self : TBlockItem) : Option Nat := do
  Y_DEBUG_ABORT_UNLESS debug (self.Raw.GetMarkers == EMarkers.Present)
  pure (TRaw.Tuple.Value self.Raw)

/-- `GetElements()`: assert the marker, `return Raw.Tuple.Value;` -/
def GetElements (debug : Bool) (self : TBlockItem) : Option Nat := do
  Y_DEBUG_ABORT_UNLESS debug (self.Raw.GetMarkers == EMarkers.Present)
  pure (TRaw.Tuple.Value self.Raw)

/-- `GetElement(ui32 index)`: assert the marker, `return Raw.Tuple.Value[index];`
The element `index` of an array of 16-byte envelopes lies `16 * index` bytes
after its start; reading an address that holds no envelope has no result. -/
def GetElement (mem : Mem) (debug : Bool) (self : TBlockItem) (index : Nat) :
    Option TBlockItem := do
  Y_DEBUG_ABORT_UNLESS debug (self.Raw.GetMarkers == EMarkers.Present)
  mem (TRaw.Tuple.Value self.Raw + 16 * (index % 2 ^ 32))

/-- `AsStringRef()`: assert the marker,
`return TStringRef(Raw.String.Value, Raw.String.Size);` -/
def AsStringRef (debug : Bool) (self : TBlockItem) : Option TStringRef := do
  Y_DEBUG_ABORT_UNLESS debug (self.Raw.GetMarkers == EMarkers.Present)
  pure ⟨TRaw.String.Value self.Raw, TRaw.String.Size self.Raw⟩

/-- `MakeOptional()`: `if (Raw.Simple.Meta) return *this;` otherwise a copy
with `++result.Raw.Simple.Count` (unsigned 64-bit increment). -/
def MakeOptional (self : TBlockItem) : TBlockItem :=
  if TRaw.Simple.Meta self.Raw != 0 then self
  else ⟨TRaw.Simple.setCount self.Raw ((TRaw.Simple.Count self.Raw + 1) % 2 ^ 64)⟩

/-- `GetOptionalValue()`: `if (Raw.Simple.Meta) return *this;` otherwise
assert `Raw.Simple.Count > 0U` and return a copy with
`--result.Raw.Simple.Count` (unsigned 64-bit decrement: `0` wraps to
`2 ^ 64 - 1`). -/
def GetOptionalValue (debug : Bool) (self : TBlockItem) : Option TBlockItem :=
  if TRaw.Simple.Meta self.Raw != 0 then some self
  else do
    Y_DEBUG_ABORT_UNLESS debug (decide (TRaw.Simple.Count self.Raw > 0))
    pure ⟨TRaw.Simple.setCount self.Raw
      (if TRaw.Simple.Count self.Raw = 0 then 2 ^ 64 - 1 else TRaw.Simple.Count self.Raw - 1)⟩

/-- `explicit operator bool() const { return bool(Raw); }` -/
def toBool (self : TBlockItem) : Bool := self.Raw.toBool

end TBlockItem

/-! ## Iterating the optional codec -/

/-- `MakeOptional` applied `n` times. -/
def makeOptionalN : Nat → TBlockItem → TBlockItem
  | 0, x => x
  | n + 1, x => makeOptionalN n x.MakeOptional

/-- `GetOptionalValue` applied `n` times; an abort ends the run. -/
def getOptionalValueN (debug : Bool) : Nat → TBlockItem → Option TBlockItem
  | 0, x => some x
  | n + 1, x => (x.GetOptionalValue debug).bind (getOptionalValueN debug n)

/-- One step of the optional codec. -/
inductive CodecOp where
  | make | unwrap
  deriving DecidableEq, Repr

/-- A finite sequence of `MakeOptional` / `GetOptionalValue` applications, from
left to right; an abort ends the run. -/
def runCodec (debug : Bool) : List CodecOp → TBlockItem → Option TBlockItem
  | [], x => some x
  | .make :: ops, x => runCodec debug ops x.MakeOptional
  | .unwrap :: ops, x => (x.GetOptionalValue debug).bind (runCodec debug ops)

/-! ## A concrete memory -/

/-- Three child envelopes holding the 32-bit integers 1, 2 and 3. -/
def exampleChildren : List TBlockItem :=
  [TBlockItem.ctorPrim .i32 1, TBlockItem.ctorPrim .i32 2, TBlockItem.ctorPrim .i32 3]

/-- A memory holding `exampleChildren` as a contiguous array at address 4096. -/
def exampleMem : Mem := fun a =>
  if a = 4096 then some (TBlockItem.ctorPrim .i32 1)
  else if a = 4112 then some (TBlockItem.ctorPrim .i32 2)
  else if a = 4128 then some (TBlockItem.ctorPrim .i32 3)
  else none

/-! ## Sizes and offsets of the members of `TRaw`

The object layout the compiler gives the declarations of `TRaw` on the 64-bit
targets the header is built for: a scalar of `n` bytes is aligned to `n` bytes
(`ui64` and pointers are 8 bytes), a struct places each member at the next
multiple of its alignment and is padded to its own alignment, a union is as
large as its largest member, padded to its alignment. -/

/-- Size and alignment of an object type, in bytes. -/
structure Layout where
  size : Nat
  align : Nat
  deriving DecidableEq, Repr

/-- The offset `off` rounded up to the next multiple of `a`. -/
def alignUp (off a : Nat) : Nat := (off + a - 1) / a * a

namespace Layout

/-- A scalar of `n` bytes. -/
def scalar (n : Nat) : Layout := ⟨n, n⟩

/-- An array `t[n]`. -/
def array (t : Layout) (n : Nat) : Layout := ⟨t.size * n, t.align⟩

/-- The largest alignment among the members. -/
def maxAlign (ms : List Layout) : Nat := ms.foldl (fun a m => max a m.align) 1

/-- The largest size among the members. -/
def maxSize (ms : List Layout) : Nat := ms.foldl (fun a m => max a m.size) 0

/-- The offsets of the members of a struct, in declaration order, the first
free byte being `off`. -/
def structOffsets : List Layout → Nat → List Nat
  | [], _ => []
  | m :: ms, off => alignUp off m.align :: structOffsets ms (alignUp off m.align + m.size)

/-- The first byte after the last member of a struct. -/
def structEnd : List Layout → Nat → Nat
  | [], off => off
  | m :: ms, off => structEnd ms (alignUp off m.align + m.size)

/-- A struct with the members `ms`. -/
def structOf (ms : List Layout) : Layout :=
  ⟨alignUp (structEnd ms 0) (maxAlign ms), maxAlign ms⟩

/-- A union with the members `ms`. -/
def unionOf (ms : List Layout) : Layout :=
  ⟨alignUp (maxSize ms) (maxAlign ms), maxAlign ms⟩

end Layout

/-- Modelled from the spec: the expansion of `PRIMITIVE_VALUE_TYPES`, in order
(see `EPrim`). -/
def EPrim.all : List EPrim :=
  [.i8, .ui8, .i16, .ui16, .i32, .ui32, .i64, .ui64, .float, .double]

/-- `ui64 Halfs[2]`. -/
def TRaw.Halfs.layout : Layout := Layout.array (Layout.scalar 8) 2

/-- The first member of `Simple`: the anonymous union of one field per
primitive scalar type, `ui8 bool_` and `ui64 Count`. -/
def TRaw.Simple.payloadMembers : List Layout :=
  EPrim.all.map (fun T => Layout.scalar T.size) ++ [Layout.scalar 1, Layout.scalar 8]

/-- The anonymous struct `{ ui8 Reserved[7]; ui8 Meta; }`. -/
def TRaw.Simple.markerMembers : List Layout :=
  [Layout.array (Layout.scalar 1) 7, Layout.scalar 1]

/-- The members of `Simple`: the payload union, then the anonymous union of
`ui64 Pad` and the struct `{ Reserved[7]; Meta; }`. -/
def TRaw.Simple.members : List Layout :=
  [Layout.unionOf TRaw.Simple.payloadMembers,
   Layout.unionOf [Layout.scalar 8, Layout.structOf TRaw.Simple.markerMembers]]

/-- The members of `String`: `const char* Value; ui32 Size;`. -/
def TRaw.String.members : List Layout := [Layout.scalar 8, Layout.scalar 4]

/-- The members of `Tuple`: `const TBlockItem* Value;`. -/
def TRaw.Tuple.members : List Layout := [Layout.scalar 8]

/-- The members of the union `TRaw`: `Halfs`, `Simple`, `String`, `Tuple`. -/
def TRaw.members : List Layout :=
  [TRaw.Halfs.layout, Layout.structOf TRaw.Simple.members,
   Layout.structOf TRaw.String.members, Layout.structOf TRaw.Tuple.members]

/-- The union `TRaw`; `TBlockItem` has no other data member. -/
def TRaw.layout : Layout := Layout.unionOf TRaw.members

/-- The byte `k` of the envelope `e`, the envelope being `Halfs[0]` followed by
`Halfs[1]`, each in little-endian order. -/
def TBlockItem.byte (e : TBlockItem) (k : Nat) : Nat :=
  if k < 8 then readBytes e.Raw.Halfs0 k 1 else readBytes e.Raw.Halfs1 (k - 8) 1

/-! ## Arithmetic of the fields -/

theorem readBytes_writeBytes (w off width v : Nat) :
    readBytes (writeBytes w off width v) off width = v % 2 ^ (8 * width) := by
  unfold readBytes writeBytes
  have hA : 0 < 2 ^ (8 * off) := Nat.two_pow_pos _
  have e : w % 2 ^ (8 * off) + v % 2 ^ (8 * width) * 2 ^ (8 * off)
      + w / 2 ^ (8 * (off + width)) * 2 ^ (8 * (off + width))
      = w % 2 ^ (8 * off) + 2 ^ (8 * off)
        * (v % 2 ^ (8 * width) + w / 2 ^ (8 * (off + width)) * 2 ^ (8 * width)) := by
    rw [Nat.mul_add 8 off width, Nat.pow_add]
    ring
  rw [e, Nat.add_mul_div_left _ _ hA, Nat.div_eq_of_lt (Nat.mod_lt _ hA), Nat.zero_add,
    Nat.add_mul_mod_self_right, Nat.mod_mod]

theorem TRaw.eq_of_halfs {a b : TRaw} (h0 : a.Halfs0 = b.Halfs0) (h1 : a.Halfs1 = b.Halfs1) :
    a = b := by
  cases a; cases b; simp_all

theorem TBlockItem.eq_of_low_high {a b : TBlockItem} (h0 : a.Low = b.Low)
    (h1 : a.High = b.High) : a = b := by
  cases a; cases b
  simp only [TBlockItem.Low, TBlockItem.High] at h0 h1
  simp [TRaw.eq_of_halfs h0 h1]

theorem TRaw.Simple.Meta_eq (r : TRaw) : TRaw.Simple.Meta r = r.Halfs1 / 2 ^ 56 := by
  have := r.lt1
  simp only [TRaw.Simple.Meta, readBytes]
  norm_num
  omega

theorem TRaw.Simple.Count_eq (r : TRaw) : TRaw.Simple.Count r = r.Halfs0 := by
  have := r.lt0
  simp only [TRaw.Simple.Count, readBytes]
  norm_num
  omega

theorem TRaw.Simple.setCount_halfs0 (r : TRaw) (v : Nat) :
    (TRaw.Simple.setCount r v).Halfs0 = v % 2 ^ 64 := by
  have := r.lt0
  simp only [TRaw.Simple.setCount, TRaw.ofHalfs, writeBytes]
  norm_num
  omega

theorem TRaw.Simple.setCount_halfs1 (r : TRaw) (v : Nat) :
    (TRaw.Simple.setCount r v).Halfs1 = r.Halfs1 := by
  have := r.lt1
  simp only [TRaw.Simple.setCount, TRaw.ofHalfs]
  omega

theorem TRaw.Simple.setMeta_halfs0 (r : TRaw) (v : Nat) :
    (TRaw.Simple.setMeta r v).Halfs0 = r.Halfs0 := by
  have := r.lt0
  simp only [TRaw.Simple.setMeta, TRaw.ofHalfs]
  omega

theorem TRaw.Simple.setMeta_halfs1 (r : TRaw) (v : Nat) :
    (TRaw.Simple.setMeta r v).Halfs1 = r.Halfs1 % 2 ^ 56 + v % 2 ^ 8 * 2 ^ 56 := by
  have := r.lt1
  simp only [TRaw.Simple.setMeta, TRaw.ofHalfs, writeBytes]
  norm_num
  omega

theorem TRaw.ofHalfs_halfs (r : TRaw) : TRaw.ofHalfs r.Halfs0 r.Halfs1 = r := by
  have h0 := r.lt0
  have h1 := r.lt1
  apply TRaw.eq_of_halfs
  · exact Nat.mod_eq_of_lt h0
  · exact Nat.mod_eq_of_lt h1

theorem TRaw.Simple.setCount_eq (r : TRaw) (v : Nat) :
    TRaw.Simple.setCount r v = TRaw.ofHalfs v r.Halfs1 := by
  apply TRaw.eq_of_halfs
  · rw [TRaw.Simple.setCount_halfs0]; rfl
  · rw [TRaw.Simple.setCount_halfs1]
    exact (Nat.mod_eq_of_lt r.lt1).symm

theorem TBlockItem.ctorHalfs_low (l h : Nat) : (TBlockItem.ctorHalfs l h).Low = l % 2 ^ 64 := rfl

theorem TBlockItem.ctorHalfs_high (l h : Nat) : (TBlockItem.ctorHalfs l h).High = h % 2 ^ 64 := rfl

theorem TBlockItem.ctorHalfs_meta (l h : Nat) :
    TRaw.Simple.Meta (TBlockItem.ctorHalfs l h).Raw = h % 2 ^ 64 / 2 ^ 56 := by
  rw [TRaw.Simple.Meta_eq]; rfl

theorem TBlockItem.ctorHalfs_low_high (e : TBlockItem) :
    TBlockItem.ctorHalfs e.Low e.High = e := by
  apply TBlockItem.eq_of_low_high
  · rw [TBlockItem.ctorHalfs_low]; exact Nat.mod_eq_of_lt e.Raw.lt0
  · rw [TBlockItem.ctorHalfs_high]; exact Nat.mod_eq_of_lt e.Raw.lt1

/-! ## The optional codec on one envelope -/

theorem TBlockItem.MakeOptional_present (p : TBlockItem) (hm : TRaw.Simple.Meta p.Raw ≠ 0) :
    p.MakeOptional = p := by
  simp [TBlockItem.MakeOptional, hm]

theorem TBlockItem.GetOptionalValue_present (debug : Bool) (p : TBlockItem)
    (hm : TRaw.Simple.Meta p.Raw ≠ 0) : p.GetOptionalValue debug = some p := by
  simp [TBlockItem.GetOptionalValue, hm]

theorem TBlockItem.MakeOptional_absent (a : TBlockItem) (hm : TRaw.Simple.Meta a.Raw = 0) :
    a.MakeOptional = TBlockItem.ctorHalfs ((a.Low + 1) % 2 ^ 64) a.High := by
  unfold TBlockItem.MakeOptional
  rw [hm, TRaw.Simple.setCount_eq, TRaw.Simple.Count_eq]
  rfl

theorem TBlockItem.GetOptionalValue_absent (debug : Bool) (a : TBlockItem)
    (hm : TRaw.Simple.Meta a.Raw = 0) (hc : 0 < a.Low ∨ debug = false) :
    a.GetOptionalValue debug
      = some (TBlockItem.ctorHalfs (if a.Low = 0 then 2 ^ 64 - 1 else a.Low - 1) a.High) := by
  have hok : Y_DEBUG_ABORT_UNLESS debug (decide (TRaw.Simple.Count a.Raw > 0)) = some () := by
    rcases hc with hc | hc
    · simp only [TBlockItem.Low] at hc
      simp [Y_DEBUG_ABORT_UNLESS, TRaw.Simple.Count_eq, hc]
    · simp [Y_DEBUG_ABORT_UNLESS, hc]
  unfold TBlockItem.GetOptionalValue
  rw [hm, hok, TRaw.Simple.setCount_eq, TRaw.Simple.Count_eq]
  rfl

theorem TBlockItem.GetOptionalValue_abort (a : TBlockItem)
    (hm : TRaw.Simple.Meta a.Raw = 0) (hc : a.Low = 0) :
    a.GetOptionalValue true = none := by
  simp only [TBlockItem.Low] at hc
  simp [TBlockItem.GetOptionalValue, hm, Y_DEBUG_ABORT_UNLESS, TRaw.Simple.Count_eq, hc]

theorem TBlockItem.Low_lt (a : TBlockItem) : a.Low < 2 ^ 64 := a.Raw.lt0

theorem TBlockItem.High_lt (a : TBlockItem) : a.High < 2 ^ 64 := a.Raw.lt1

theorem TBlockItem.Meta_eq_high (a : TBlockItem) : TRaw.Simple.Meta a.Raw = a.High / 2 ^ 56 :=
  TRaw.Simple.Meta_eq a.Raw

theorem TBlockItem.Count_eq_low (a : TBlockItem) : TRaw.Simple.Count a.Raw = a.Low :=
  TRaw.Simple.Count_eq a.Raw

theorem TBlockItem.GetOptionalValue_MakeOptional (debug : Bool) (a : TBlockItem)
    (hm : TRaw.Simple.Meta a.Raw = 0) (hc : a.Low < 2 ^ 64 - 1 ∨ debug = false) :
    a.MakeOptional.GetOptionalValue debug = some a := by
  have h0 := a.Low_lt
  have h1 := a.High_lt
  have hm2 := hm
  rw [TBlockItem.Meta_eq_high] at hm2
  have hmb : TRaw.Simple.Meta (TBlockItem.ctorHalfs ((a.Low + 1) % 2 ^ 64) a.High).Raw = 0 := by
    rw [TBlockItem.ctorHalfs_meta]
    omega
  have hcb : 0 < (TBlockItem.ctorHalfs ((a.Low + 1) % 2 ^ 64) a.High).Low ∨ debug = false := by
    rcases hc with hc | hc
    · left
      rw [TBlockItem.ctorHalfs_low]
      omega
    · exact Or.inr hc
  rw [TBlockItem.MakeOptional_absent a hm, TBlockItem.GetOptionalValue_absent debug _ hmb hcb]
  refine congrArg some ?_
  apply TBlockItem.eq_of_low_high
  · simp only [TBlockItem.ctorHalfs_low]
    split_ifs <;> omega
  · simp only [TBlockItem.ctorHalfs_high]
    omega

theorem TBlockItem.MakeOptional_GetOptionalValue (debug : Bool) (a : TBlockItem)
    (hm : TRaw.Simple.Meta a.Raw = 0) (hc : 0 < a.Low) :
    (a.GetOptionalValue debug).map TBlockItem.MakeOptional = some a := by
  have h0 := a.Low_lt
  have h1 := a.High_lt
  have hm2 := hm
  rw [TBlockItem.Meta_eq_high] at hm2
  have hne : ¬ a.Low = 0 := by omega
  have hmb : TRaw.Simple.Meta (TBlockItem.ctorHalfs (a.Low - 1) a.High).Raw = 0 := by
    rw [TBlockItem.ctorHalfs_meta]
    omega
  rw [TBlockItem.GetOptionalValue_absent debug a hm (Or.inl hc), if_neg hne, Option.map_some',
    TBlockItem.MakeOptional_absent _ hmb]
  refine congrArg some ?_
  apply TBlockItem.eq_of_low_high
  · simp only [TBlockItem.ctorHalfs_low]
    omega
  · simp only [TBlockItem.ctorHalfs_high]
    omega

/-! ## Iterating the codec -/

theorem TBlockItem.ctorHalfs_congr {l l2 h h2 : Nat} (hl : l % 2 ^ 64 = l2 % 2 ^ 64)
    (hh : h % 2 ^ 64 = h2 % 2 ^ 64) : TBlockItem.ctorHalfs l h = TBlockItem.ctorHalfs l2 h2 := by
  apply TBlockItem.eq_of_low_high
  · simp only [TBlockItem.ctorHalfs_low]; exact hl
  · simp only [TBlockItem.ctorHalfs_high]; exact hh

theorem TBlockItem.ctor_eq : TBlockItem.ctor = TBlockItem.ctorHalfs 0 0 := rfl

theorem TBlockItem.MakeOptional_ctorHalfs (k h : Nat) (hh : h < 2 ^ 56) :
    (TBlockItem.ctorHalfs k h).MakeOptional = TBlockItem.ctorHalfs (k + 1) h := by
  have hm : TRaw.Simple.Meta (TBlockItem.ctorHalfs k h).Raw = 0 := by
    rw [TBlockItem.ctorHalfs_meta]
    omega
  rw [TBlockItem.MakeOptional_absent _ hm]
  apply TBlockItem.ctorHalfs_congr
  · simp only [TBlockItem.ctorHalfs_low]
    omega
  · simp only [TBlockItem.ctorHalfs_high]
    omega

theorem makeOptionalN_ctorHalfs (n : Nat) : ∀ (k h : Nat), h < 2 ^ 56 →
    makeOptionalN n (TBlockItem.ctorHalfs k h) = TBlockItem.ctorHalfs (k + n) h := by
  induction n with
  | zero => intro k h _; rfl
  | succ n ih =>
    intro k h hh
    rw [makeOptionalN, TBlockItem.MakeOptional_ctorHalfs k h hh, ih (k + 1) h hh]
    apply TBlockItem.ctorHalfs_congr
    · congr 1; omega
    · rfl

theorem TBlockItem.GetOptionalValue_ctorHalfs (debug : Bool) (k h : Nat) (hh : h < 2 ^ 56)
    (hc : k + 1 < 2 ^ 64 ∨ debug = false) :
    (TBlockItem.ctorHalfs (k + 1) h).GetOptionalValue debug = some (TBlockItem.ctorHalfs k h) := by
  have hm : TRaw.Simple.Meta (TBlockItem.ctorHalfs (k + 1) h).Raw = 0 := by
    rw [TBlockItem.ctorHalfs_meta]
    omega
  have hc2 : 0 < (TBlockItem.ctorHalfs (k + 1) h).Low ∨ debug = false := by
    rcases hc with hc | hc
    · left
      rw [TBlockItem.ctorHalfs_low]
      omega
    · exact Or.inr hc
  rw [TBlockItem.GetOptionalValue_absent debug _ hm hc2]
  refine congrArg some ?_
  apply TBlockItem.ctorHalfs_congr
  · simp only [TBlockItem.ctorHalfs_low]
    split_ifs <;> omega
  · simp only [TBlockItem.ctorHalfs_high]
    omega

theorem getOptionalValueN_ctorHalfs (debug : Bool) (n : Nat) : ∀ (k h : Nat), h < 2 ^ 56 →
    (k + n < 2 ^ 64 ∨ debug = false) →
    getOptionalValueN debug n (TBlockItem.ctorHalfs (k + n) h)
      = some (TBlockItem.ctorHalfs k h) := by
  induction n with
  | zero => intro k h _ _; rfl
  | succ n ih =>
    intro k h hh hc
    have hc1 : k + n + 1 < 2 ^ 64 ∨ debug = false := by
      rcases hc with hc | hc
      · left; omega
      · exact Or.inr hc
    have hc2 : k + n < 2 ^ 64 ∨ debug = false := by
      rcases hc with hc | hc
      · left; omega
      · exact Or.inr hc
    have e : k + (n + 1) = k + n + 1 := rfl
    rw [getOptionalValueN, e, TBlockItem.GetOptionalValue_ctorHalfs debug (k + n) h hh hc1,
      Option.some_bind]
    exact ih k h hh hc2

theorem runCodec_present (debug : Bool) (p : TBlockItem) (hm : TRaw.Simple.Meta p.Raw ≠ 0)
    (ops : List CodecOp) : runCodec debug ops p = some p := by
  induction ops with
  | nil => rfl
  | cons op ops ih =>
    cases op with
    | make => rw [runCodec, TBlockItem.MakeOptional_present p hm]; exact ih
    | unwrap =>
      rw [runCodec, TBlockItem.GetOptionalValue_present debug p hm, Option.some_bind]
      exact ih

theorem makeOptionalN_ctor (n : Nat) :
    makeOptionalN n TBlockItem.ctor = TBlockItem.ctorHalfs n 0 := by
  rw [TBlockItem.ctor_eq, makeOptionalN_ctorHalfs n 0 0 (by norm_num), Nat.zero_add]

/-! ## The typed constructors, word by word -/

theorem EPrim.toBits_lt (T : EPrim) (v : Int) : T.toBits v < 2 ^ (8 * T.size) := by
  cases T <;> simp only [EPrim.toBits, EPrim.size] <;> norm_num <;> omega

theorem EPrim.ofBits_toBits (T : EPrim) (v : Int) (hv : T.InRange v) :
    T.ofBits (T.toBits v) = v := by
  cases T <;> simp only [EPrim.InRange, EPrim.signed, EPrim.size] at hv <;>
    simp only [EPrim.ofBits, EPrim.toBits, EPrim.signed, EPrim.size] <;>
    norm_num at hv ⊢ <;> omega

theorem TRaw.Simple.setPrim_init_halfs0 (T : EPrim) (b : Nat) (hb : b < 2 ^ (8 * T.size)) :
    (TRaw.Simple.setPrim T TRaw.init b).Halfs0 = b := by
  cases T <;> simp only [EPrim.size] at hb <;>
    simp only [TRaw.Simple.setPrim, TRaw.init, TRaw.ofHalfs, writeBytes, EPrim.size] <;>
    norm_num at hb ⊢ <;> omega

theorem TRaw.Simple.setPrim_init_halfs1 (T : EPrim) (b : Nat) :
    (TRaw.Simple.setPrim T TRaw.init b).Halfs1 = 0 := rfl

theorem TRaw.Simple.setMeta_present_halfs1 (r : TRaw) :
    (TRaw.Simple.setMeta r EMarkers.Present.val).Halfs1 = r.Halfs1 % 2 ^ 56 + 2 ^ 56 := by
  have := r.lt1
  simp only [TRaw.Simple.setMeta, TRaw.ofHalfs, writeBytes, EMarkers.Present]
  norm_num
  omega

theorem TBlockItem.Low_mk (r : TRaw) : (TBlockItem.mk r).Low = r.Halfs0 := rfl

theorem TBlockItem.High_mk (r : TRaw) : (TBlockItem.mk r).High = r.Halfs1 := rfl

theorem TBlockItem.ctorPrim_def (T : EPrim) (v : Int) : TBlockItem.ctorPrim T v
    = ⟨TRaw.Simple.setMeta (TRaw.Simple.setPrim T TRaw.init (T.toBits v)) EMarkers.Present.val⟩ :=
  rfl

theorem TBlockItem.ctorPrim_low (T : EPrim) (v : Int) :
    (TBlockItem.ctorPrim T v).Low = T.toBits v := by
  rw [TBlockItem.ctorPrim_def, TBlockItem.Low_mk, TRaw.Simple.setMeta_halfs0,
    TRaw.Simple.setPrim_init_halfs0 T _ (T.toBits_lt v)]

theorem TBlockItem.ctorPrim_high (T : EPrim) (v : Int) :
    (TBlockItem.ctorPrim T v).High = 2 ^ 56 := by
  rw [TBlockItem.ctorPrim_def, TBlockItem.High_mk, TRaw.Simple.setMeta_present_halfs1,
    TRaw.Simple.setPrim_init_halfs1, Nat.zero_mod, Nat.zero_add]

theorem TRaw.Simple.setBool_init_halfs0 (b : Bool) :
    (TRaw.Simple.setBool_ TRaw.init (if b then 1 else 0)).Halfs0 = if b then 1 else 0 := by
  cases b <;> rfl

theorem TRaw.Simple.setBool_init_halfs1 (v : Nat) :
    (TRaw.Simple.setBool_ TRaw.init v).Halfs1 = 0 := rfl

theorem TBlockItem.ctorBool_def (b : Bool) : TBlockItem.ctorBool b
    = ⟨TRaw.Simple.setMeta (TRaw.Simple.setBool_ TRaw.init (if b then 1 else 0))
        EMarkers.Present.val⟩ := rfl

theorem TBlockItem.ctorBool_low (b : Bool) :
    (TBlockItem.ctorBool b).Low = if b then 1 else 0 := by
  rw [TBlockItem.ctorBool_def, TBlockItem.Low_mk, TRaw.Simple.setMeta_halfs0,
    TRaw.Simple.setBool_init_halfs0]

theorem TBlockItem.ctorBool_high (b : Bool) : (TBlockItem.ctorBool b).High = 2 ^ 56 := by
  rw [TBlockItem.ctorBool_def, TBlockItem.High_mk, TRaw.Simple.setMeta_present_halfs1,
    TRaw.Simple.setBool_init_halfs1, Nat.zero_mod, Nat.zero_add]

theorem TBlockItem.assert_present (debug : Bool) (e : TBlockItem) (h : e.High / 2 ^ 56 = 1) :
    Y_DEBUG_ABORT_UNLESS debug (e.Raw.GetMarkers == EMarkers.Present) = some () := by
  have hm : e.Raw.GetMarkers = EMarkers.Present := by
    unfold TRaw.GetMarkers EMarkers.Present
    rw [TBlockItem.Meta_eq_high, h]
  rw [hm]
  cases debug <;> rfl

theorem TBlockItem.prim_eq (T : EPrim) (e : TBlockItem) :
    TRaw.Simple.prim T e.Raw = e.Low % 2 ^ (8 * T.size) := by
  simp only [TRaw.Simple.prim, readBytes, TBlockItem.Low]
  norm_num

theorem TRaw.String.stringValue_eq (r : TRaw) : TRaw.String.Value r = r.Halfs0 := by
  have := r.lt0
  simp only [TRaw.String.Value, readBytes]
  norm_num
  omega

theorem TRaw.String.stringSize_eq (r : TRaw) : TRaw.String.Size r = r.Halfs1 % 2 ^ 32 := by
  simp only [TRaw.String.Size, readBytes]
  norm_num

theorem TRaw.Tuple.tupleValue_eq (r : TRaw) : TRaw.Tuple.Value r = r.Halfs0 := by
  have := r.lt0
  simp only [TRaw.Tuple.Value, readBytes]
  norm_num
  omega

theorem TRaw.String.setStringValue_init_halfs0 (v : Nat) :
    (TRaw.String.setValue TRaw.init v).Halfs0 = v % 2 ^ 64 := by
  simp only [TRaw.String.setValue, TRaw.init, TRaw.ofHalfs, writeBytes]
  norm_num

theorem TRaw.String.setStringValue_init_halfs1 (v : Nat) :
    (TRaw.String.setValue TRaw.init v).Halfs1 = 0 := rfl

theorem TRaw.String.setSize_halfs0 (r : TRaw) (v : Nat) :
    (TRaw.String.setSize r v).Halfs0 = r.Halfs0 := by
  have := r.lt0
  simp only [TRaw.String.setSize, TRaw.ofHalfs]
  omega

theorem TRaw.String.setSize_halfs1 (r : TRaw) (v : Nat) :
    (TRaw.String.setSize r v).Halfs1 = v % 2 ^ 32 + r.Halfs1 / 2 ^ 32 * 2 ^ 32 := by
  have := r.lt1
  simp only [TRaw.String.setSize, TRaw.ofHalfs, writeBytes]
  norm_num
  omega

theorem TRaw.Tuple.setTupleValue_init_halfs0 (v : Nat) :
    (TRaw.Tuple.setValue TRaw.init v).Halfs0 = v % 2 ^ 64 := by
  simp only [TRaw.Tuple.setValue, TRaw.init, TRaw.ofHalfs, writeBytes]
  norm_num

theorem TRaw.Tuple.setTupleValue_init_halfs1 (v : Nat) :
    (TRaw.Tuple.setValue TRaw.init v).Halfs1 = 0 := rfl

theorem TBlockItem.ctorString_def (s : TStringRef) : TBlockItem.ctorString s
    = ⟨TRaw.Simple.setMeta (TRaw.String.setSize (TRaw.String.setValue TRaw.init s.Data) s.Size)
        EMarkers.Present.val⟩ := rfl

theorem TBlockItem.ctorString_low (s : TStringRef) :
    (TBlockItem.ctorString s).Low = s.Data % 2 ^ 64 := by
  rw [TBlockItem.ctorString_def, TBlockItem.Low_mk, TRaw.Simple.setMeta_halfs0,
    TRaw.String.setSize_halfs0, TRaw.String.setStringValue_init_halfs0]

theorem TBlockItem.ctorString_high (s : TStringRef) :
    (TBlockItem.ctorString s).High = s.Size % 2 ^ 32 + 2 ^ 56 := by
  rw [TBlockItem.ctorString_def, TBlockItem.High_mk, TRaw.Simple.setMeta_present_halfs1,
    TRaw.String.setSize_halfs1, TRaw.String.setStringValue_init_halfs1]
  omega

theorem TBlockItem.ctorTuple_def (p : Nat) : TBlockItem.ctorTuple p
    = ⟨TRaw.Simple.setMeta (TRaw.Tuple.setValue TRaw.init p) EMarkers.Present.val⟩ := rfl

theorem TBlockItem.ctorTuple_low (p : Nat) : (TBlockItem.ctorTuple p).Low = p % 2 ^ 64 := by
  rw [TBlockItem.ctorTuple_def, TBlockItem.Low_mk, TRaw.Simple.setMeta_halfs0,
    TRaw.Tuple.setTupleValue_init_halfs0]

theorem TBlockItem.ctorTuple_high (p : Nat) : (TBlockItem.ctorTuple p).High = 2 ^ 56 := by
  rw [TBlockItem.ctorTuple_def, TBlockItem.High_mk, TRaw.Simple.setMeta_present_halfs1,
    TRaw.Tuple.setTupleValue_init_halfs1, Nat.zero_mod, Nat.zero_add]

theorem TBlockItem.stringValue_eq_low (e : TBlockItem) :
    TRaw.String.Value e.Raw = e.Low := TRaw.String.stringValue_eq e.Raw

theorem TBlockItem.stringSize_eq_high (e : TBlockItem) :
    TRaw.String.Size e.Raw = e.High % 2 ^ 32 := TRaw.String.stringSize_eq e.Raw

theorem TBlockItem.tupleValue_eq_low (e : TBlockItem) :
    TRaw.Tuple.Value e.Raw = e.Low := TRaw.Tuple.tupleValue_eq e.Raw

/-! ## Truthiness -/

theorem lor_eq_zero_iff (a b : Nat) : a ||| b = 0 ↔ a = 0 ∧ b = 0 := by
  constructor
  · intro h
    have key : ∀ i, a.testBit i = false ∧ b.testBit i = false := by
      intro i
      have hi := congrArg (fun n => n.testBit i) h
      simpa [Nat.testBit_or] using hi
    exact ⟨Nat.eq_of_testBit_eq (fun i => by simp [(key i).1]),
      Nat.eq_of_testBit_eq (fun i => by simp [(key i).2])⟩
  · rintro ⟨rfl, rfl⟩
    rfl

theorem TBlockItem.toBool_eq_false_iff (e : TBlockItem) :
    e.toBool = false ↔ TRaw.Simple.Meta e.Raw = 0 ∧ TRaw.Simple.Count e.Raw = 0 := by
  unfold TBlockItem.toBool TRaw.toBool
  rw [bne_eq_false_iff_eq, lor_eq_zero_iff]

theorem TBlockItem.toBool_eq_true_iff (e : TBlockItem) :
    e.toBool = true ↔ TRaw.Simple.Meta e.Raw ≠ 0 ∨ TRaw.Simple.Count e.Raw ≠ 0 := by
  rw [← Bool.not_eq_false, TBlockItem.toBool_eq_false_iff]
  tauto

/-! ## The optional depth codec: claims C1, C2, C3 -/

/-- C1, as stated, fails at the top counter value.  The envelope built from the
raw halves `(2 ^ 64 - 1, 0)` has marker byte zero; `MakeOptional` wraps its
counter to zero, giving the default envelope, on which the `Count > 0`
assertion of `GetOptionalValue` fails in a debug build.  (With the assertion
compiled out the decrement wraps back to the original envelope.) -/
theorem codec_inverse_on_absent_counterexample :
    TRaw.Simple.Meta (TBlockItem.ctorHalfs (2 ^ 64 - 1) 0).Raw = 0 ∧
    (TBlockItem.ctorHalfs (2 ^ 64 - 1) 0).MakeOptional = TBlockItem.ctor ∧
    (TBlockItem.ctorHalfs (2 ^ 64 - 1) 0).MakeOptional.GetOptionalValue true = none ∧
    (TBlockItem.ctorHalfs (2 ^ 64 - 1) 0).MakeOptional.GetOptionalValue false
      = some (TBlockItem.ctorHalfs (2 ^ 64 - 1) 0) := by
  decide

/-- C1, amended.  `MakeOptional` and `GetOptionalValue` are exact inverses on the
absent branch, below the top counter value: for every envelope `a` whose marker
byte is zero and whose counter is below `2 ^ 64 - 1` (or, at any counter, in a
build without the debug assertions), `MakeOptional a` has a positive counter and
`GetOptionalValue (MakeOptional a)` returns `a` itself; and for every absent
envelope `a` with counter `> 0`, `MakeOptional (GetOptionalValue a)` is `a`.
At the top counter value `2 ^ 64 - 1`, `MakeOptional a` has counter zero, so
`GetOptionalValue (MakeOptional a)` aborts in a debug build, and returns `a`
with the assertions compiled out.  Equality of envelopes is equality of both
64-bit words. -/
theorem codec_inverse_on_absent (debug : Bool) (a : TBlockItem)
    (hm : TRaw.Simple.Meta a.Raw = 0) :
    ((TRaw.Simple.Count a.Raw < 2 ^ 64 - 1 ∨ debug = false) →
      a.MakeOptional.GetOptionalValue debug = some a) ∧
    (TRaw.Simple.Count a.Raw < 2 ^ 64 - 1 → 0 < TRaw.Simple.Count a.MakeOptional.Raw) ∧
    (0 < TRaw.Simple.Count a.Raw →
      (a.GetOptionalValue debug).map TBlockItem.MakeOptional = some a) ∧
    (TRaw.Simple.Count a.Raw = 2 ^ 64 - 1 →
      TRaw.Simple.Count a.MakeOptional.Raw = 0 ∧
      a.MakeOptional.GetOptionalValue true = none ∧
      a.MakeOptional.GetOptionalValue false = some a) := by
  rw [TBlockItem.Count_eq_low]
  have h1 := a.High_lt
  have hm2 := hm
  rw [TBlockItem.Meta_eq_high] at hm2
  refine ⟨fun hc => TBlockItem.GetOptionalValue_MakeOptional debug a hm hc, fun hc => ?_,
    fun hc => TBlockItem.MakeOptional_GetOptionalValue debug a hm hc, fun hc => ?_⟩
  · rw [TBlockItem.Count_eq_low, TBlockItem.MakeOptional_absent a hm, TBlockItem.ctorHalfs_low]
    omega
  · have hlow : a.MakeOptional.Low = 0 := by
      rw [TBlockItem.MakeOptional_absent a hm, TBlockItem.ctorHalfs_low]
      omega
    have hmeta : TRaw.Simple.Meta a.MakeOptional.Raw = 0 := by
      rw [TBlockItem.MakeOptional_absent a hm, TBlockItem.ctorHalfs_meta]
      omega
    refine ⟨?_, TBlockItem.GetOptionalValue_abort _ hmeta hlow,
      TBlockItem.GetOptionalValue_MakeOptional false a hm (Or.inr rfl)⟩
    rw [TBlockItem.Count_eq_low, hlow]

/-- C1, amended, at the absent envelope of depth 5 in a debug build, and at the
absent envelope with the top counter value. -/
theorem codec_inverse_on_absent_witness :
    TRaw.Simple.Meta (TBlockItem.ctorHalfs 5 0).Raw = 0 ∧
    (TBlockItem.ctorHalfs 5 0).MakeOptional.GetOptionalValue true
      = some (TBlockItem.ctorHalfs 5 0) ∧
    ((TBlockItem.ctorHalfs 5 0).GetOptionalValue true).map TBlockItem.MakeOptional
      = some (TBlockItem.ctorHalfs 5 0) ∧
    (TBlockItem.ctorHalfs (2 ^ 64 - 1) 0).MakeOptional.GetOptionalValue true = none :=
  ⟨by decide,
   (codec_inverse_on_absent true (TBlockItem.ctorHalfs 5 0) (by decide)).1 (Or.inl (by decide)),
   (codec_inverse_on_absent true (TBlockItem.ctorHalfs 5 0) (by decide)).2.2.1 (by decide),
   ((codec_inverse_on_absent true (TBlockItem.ctorHalfs (2 ^ 64 - 1) 0) (by decide)).2.2.2
     (by decide)).2.1⟩

/-- C2, as stated, fails at `n = 2 ^ 64` in a debug build: `2 ^ 64` applications
of `MakeOptional` wrap the counter of the default envelope back to zero, and the
first `GetOptionalValue` then fails its `Count > 0` assertion. -/
theorem codec_depth_symmetry_counterexample :
    makeOptionalN (2 ^ 64) TBlockItem.ctor = TBlockItem.ctor ∧
    getOptionalValueN true (2 ^ 64) (makeOptionalN (2 ^ 64) TBlockItem.ctor) = none := by
  have hmk : makeOptionalN (2 ^ 64) TBlockItem.ctor = TBlockItem.ctor := by
    rw [TBlockItem.ctor_eq, makeOptionalN_ctorHalfs (2 ^ 64) 0 0 (by norm_num)]
    exact TBlockItem.ctorHalfs_congr (by norm_num) rfl
  have hsucc : (2 : Nat) ^ 64 = (2 ^ 64 - 1) + 1 := by norm_num
  have hget : getOptionalValueN true ((2 ^ 64 - 1) + 1) TBlockItem.ctor = none := by
    rw [getOptionalValueN, TBlockItem.GetOptionalValue_abort TBlockItem.ctor (by decide) rfl]
    rfl
  refine ⟨hmk, ?_⟩
  rw [hmk, hsucc]
  exact hget

/-- C2, amended.  Depth symmetry from the base absence: for every `n < 2 ^ 64`
(and for every `n` in a build without the debug assertions), applying
`MakeOptional` `n` times to the default envelope and then `GetOptionalValue`
`n` times returns the default envelope; in particular
`GetOptionalValue (MakeOptional a0) = a0`. -/
theorem codec_depth_symmetry (debug : Bool) (n : Nat) (hn : n < 2 ^ 64 ∨ debug = false) :
    getOptionalValueN debug n (makeOptionalN n TBlockItem.ctor) = some TBlockItem.ctor ∧
    TBlockItem.ctor.MakeOptional.GetOptionalValue debug = some TBlockItem.ctor := by
  constructor
  · rw [TBlockItem.ctor_eq, makeOptionalN_ctorHalfs n 0 0 (by norm_num)]
    exact getOptionalValueN_ctorHalfs debug n 0 0 (by norm_num) (by rw [Nat.zero_add]; exact hn)
  · exact TBlockItem.GetOptionalValue_MakeOptional debug TBlockItem.ctor (by decide)
      (Or.inl (by decide))

/-- C2, amended, at depth 3 in a debug build. -/
theorem codec_depth_symmetry_witness :
    getOptionalValueN true 3 (makeOptionalN 3 TBlockItem.ctor) = some TBlockItem.ctor ∧
    TBlockItem.ctor.MakeOptional.GetOptionalValue true = some TBlockItem.ctor :=
  codec_depth_symmetry true 3 (Or.inl (by decide))

/-- C3.  The optional codec is a no-op on presence: for every envelope `p` whose
marker byte is non-zero, `MakeOptional p` and `GetOptionalValue p` are `p`
itself (the latter without abort), and so is the result of every finite
sequence `ops` of `MakeOptional` / `GetOptionalValue` applications to `p`. -/
theorem codec_noop_on_present (debug : Bool) (p : TBlockItem)
    (hm : TRaw.Simple.Meta p.Raw ≠ 0) (ops : List CodecOp) :
    p.MakeOptional = p ∧ p.GetOptionalValue debug = some p ∧ runCodec debug ops p = some p :=
  ⟨TBlockItem.MakeOptional_present p hm, TBlockItem.GetOptionalValue_present debug p hm,
   runCodec_present debug p hm ops⟩

/-- C3 at the envelope of the 32-bit integer 42 and a sequence of four steps. -/
theorem codec_noop_on_present_witness :
    TRaw.Simple.Meta (TBlockItem.ctorPrim .i32 42).Raw ≠ 0 ∧
    (TBlockItem.ctorPrim .i32 42).MakeOptional = TBlockItem.ctorPrim .i32 42 ∧
    (TBlockItem.ctorPrim .i32 42).GetOptionalValue true = some (TBlockItem.ctorPrim .i32 42) ∧
    runCodec true [.make, .unwrap, .unwrap, .make] (TBlockItem.ctorPrim .i32 42)
      = some (TBlockItem.ctorPrim .i32 42) :=
  ⟨by decide, codec_noop_on_present true (TBlockItem.ctorPrim .i32 42) (by decide)
    [.make, .unwrap, .unwrap, .make]⟩

/-! ## Variant accessors: claims C4, C5, C6 -/

/-- C4.  Primitive round-trip: for every primitive scalar type `T` and every
value `v` of `T` (an integer of the range of `T`; a bit pattern for `float` and
`double`), the envelope built by the scalar constructor from `v` has its marker
equal to `Present`, so the assertion of `Get<T>` holds in every build, and
`Get<T>` returns `v`. -/
theorem prim_round_trip (debug : Bool) (T : EPrim) (v : Int) (hv : T.InRange v) :
    (TBlockItem.ctorPrim T v).Raw.GetMarkers = EMarkers.Present ∧
    (TBlockItem.ctorPrim T v).Get debug T = some v := by
  have hhigh : (TBlockItem.ctorPrim T v).High / 2 ^ 56 = 1 := by
    rw [TBlockItem.ctorPrim_high]; norm_num
  constructor
  · unfold TRaw.GetMarkers EMarkers.Present
    rw [TBlockItem.Meta_eq_high, hhigh]
  · unfold TBlockItem.Get
    rw [TBlockItem.assert_present debug _ hhigh, TBlockItem.prim_eq, TBlockItem.ctorPrim_low,
      Nat.mod_eq_of_lt (T.toBits_lt v), T.ofBits_toBits v hv]
    rfl

/-- C4 at the 32-bit integer 42: the value 42 reads back as 42. -/
theorem prim_round_trip_witness :
    EPrim.i32.InRange 42 ∧ (TBlockItem.ctorPrim .i32 42).Get true .i32 = some 42 :=
  ⟨by decide, (prim_round_trip true .i32 42 (by decide)).2⟩

/-- C5.  String round-trip: for every string view `s` (a 64-bit pointer and a
length below `2 ^ 32`), the envelope built by the string constructor from `s`
has its marker equal to `Present`, its fields `String.Value` and `String.Size`
hold the pointer and the length of `s` after the marker has been set, and
`AsStringRef` passes its assertion in every build and returns `s`. -/
theorem string_round_trip (debug : Bool) (s : TStringRef) (hd : s.Data < 2 ^ 64)
    (hs : s.Size < 2 ^ 32) :
    (TBlockItem.ctorString s).Raw.GetMarkers = EMarkers.Present ∧
    TRaw.String.Value (TBlockItem.ctorString s).Raw = s.Data ∧
    TRaw.String.Size (TBlockItem.ctorString s).Raw = s.Size ∧
    (TBlockItem.ctorString s).AsStringRef debug = some s := by
  have hmeta : (TBlockItem.ctorString s).High / 2 ^ 56 = 1 := by
    rw [TBlockItem.ctorString_high]
    omega
  have hv : TRaw.String.Value (TBlockItem.ctorString s).Raw = s.Data := by
    rw [TBlockItem.stringValue_eq_low, TBlockItem.ctorString_low, Nat.mod_eq_of_lt hd]
  have hz : TRaw.String.Size (TBlockItem.ctorString s).Raw = s.Size := by
    rw [TBlockItem.stringSize_eq_high, TBlockItem.ctorString_high]
    omega
  refine ⟨?_, hv, hz, ?_⟩
  · unfold TRaw.GetMarkers EMarkers.Present
    rw [TBlockItem.Meta_eq_high, hmeta]
  · unfold TBlockItem.AsStringRef
    rw [TBlockItem.assert_present debug _ hmeta, hv, hz]
    rfl

/-- C5 at the five-byte string "hello" stored at address 4096. -/
theorem string_round_trip_witness :
    (4096 : Nat) < 2 ^ 64 ∧ (5 : Nat) < 2 ^ 32 ∧
    (TBlockItem.ctorString ⟨4096, 5⟩).AsStringRef true = some ⟨4096, 5⟩ :=
  ⟨by decide, by decide, (string_round_trip true ⟨4096, 5⟩ (by decide) (by decide)).2.2.2⟩

/-- C6.  Tuple view: for every 64-bit pointer `ptr` at which the memory holds the
contiguous sequence `xs` of child envelopes (16 bytes apart), the envelope built
by the tuple constructor from `ptr` returns `ptr` from `GetElements`, and
`GetElement i` returns the child `xs[i]` itself for every index `i` within the
sequence (`i` being a `ui32`), in every build. -/
theorem tuple_view (mem : Mem) (debug : Bool) (ptr : Nat) (xs : List TBlockItem)
    (hp : ptr < 2 ^ 64)
    (hmem : ∀ k (hk : k < xs.length), mem (ptr + 16 * k) = some xs[k]) :
    (TBlockItem.ctorTuple ptr).GetElements debug = some ptr ∧
    ∀ i (hi : i < xs.length), i < 2 ^ 32 →
      (TBlockItem.ctorTuple ptr).GetElement mem debug i = some xs[i] := by
  have hmeta : (TBlockItem.ctorTuple ptr).High / 2 ^ 56 = 1 := by
    rw [TBlockItem.ctorTuple_high]
    norm_num
  have hv : TRaw.Tuple.Value (TBlockItem.ctorTuple ptr).Raw = ptr := by
    rw [TBlockItem.tupleValue_eq_low, TBlockItem.ctorTuple_low, Nat.mod_eq_of_lt hp]
  constructor
  · unfold TBlockItem.GetElements
    rw [TBlockItem.assert_present debug _ hmeta, hv]
    rfl
  · intro i hi hi32
    unfold TBlockItem.GetElement
    rw [TBlockItem.assert_present debug _ hmeta, hv, Nat.mod_eq_of_lt hi32]
    exact hmem i hi

/-- C6 at three children holding 1, 2, 3 stored at address 4096: element 1
holds 2. -/
theorem tuple_view_witness :
    (TBlockItem.ctorTuple 4096).GetElements true = some 4096 ∧
    (TBlockItem.ctorTuple 4096).GetElement exampleMem true 1
      = some (TBlockItem.ctorPrim .i32 2) ∧
    (TBlockItem.ctorPrim .i32 2).Get true .i32 = some 2 :=
  ⟨(tuple_view exampleMem true 4096 exampleChildren (by decide) (by decide)).1,
   (tuple_view exampleMem true 4096 exampleChildren (by decide) (by decide)).2 1
     (by decide) (by decide),
   by decide⟩

/-! ## Raw halves, marker and truthiness: claims C7, C8, C9, C10 -/

/-- C7.  Raw round-trip: for every envelope `e`, the envelope built by the
raw-halves constructor from `(e.Low, e.High)` is `e` itself; and for all 64-bit
words `l` and `h` the envelope built from `(l, h)` has `Low = l` and
`High = h`. -/
theorem raw_round_trip (e : TBlockItem) (l h : Nat) (hl : l < 2 ^ 64) (hh : h < 2 ^ 64) :
    TBlockItem.ctorHalfs e.Low e.High = e ∧
    (TBlockItem.ctorHalfs l h).Low = l ∧ (TBlockItem.ctorHalfs l h).High = h := by
  refine ⟨TBlockItem.ctorHalfs_low_high e, ?_, ?_⟩
  · rw [TBlockItem.ctorHalfs_low, Nat.mod_eq_of_lt hl]
  · rw [TBlockItem.ctorHalfs_high, Nat.mod_eq_of_lt hh]

/-- C7 at the envelope of the string "hello" and at the words `(7, 2 ^ 63)`. -/
theorem raw_round_trip_witness :
    TBlockItem.ctorHalfs (TBlockItem.ctorString ⟨4096, 5⟩).Low
      (TBlockItem.ctorString ⟨4096, 5⟩).High = TBlockItem.ctorString ⟨4096, 5⟩ ∧
    (TBlockItem.ctorHalfs 7 (2 ^ 63)).Low = 7 ∧ (TBlockItem.ctorHalfs 7 (2 ^ 63)).High = 2 ^ 63 :=
  raw_round_trip (TBlockItem.ctorString ⟨4096, 5⟩) 7 (2 ^ 63) (by decide) (by decide)

/-- C8.  Marker invariant: every envelope built by the scalar, boolean,
string-view or tuple-pointer constructor has marker byte exactly
`Present = 1`, whatever the payload; and the default envelope after any number
`n` of `MakeOptional` applications has marker byte zero. -/
theorem marker_invariant (T : EPrim) (v : Int) (b : Bool) (s : TStringRef) (p n : Nat) :
    TRaw.Simple.Meta (TBlockItem.ctorPrim T v).Raw = 1 ∧
    TRaw.Simple.Meta (TBlockItem.ctorBool b).Raw = 1 ∧
    TRaw.Simple.Meta (TBlockItem.ctorString s).Raw = 1 ∧
    TRaw.Simple.Meta (TBlockItem.ctorTuple p).Raw = 1 ∧
    TRaw.Simple.Meta (makeOptionalN n TBlockItem.ctor).Raw = 0 := by
  refine ⟨?_, ?_, ?_, ?_, ?_⟩
  · rw [TBlockItem.Meta_eq_high, TBlockItem.ctorPrim_high]; norm_num
  · rw [TBlockItem.Meta_eq_high, TBlockItem.ctorBool_high]; norm_num
  · rw [TBlockItem.Meta_eq_high, TBlockItem.ctorString_high]; omega
  · rw [TBlockItem.Meta_eq_high, TBlockItem.ctorTuple_high]; norm_num
  · rw [makeOptionalN_ctor, TBlockItem.ctorHalfs_meta]; norm_num

/-- C9.  Truthiness: `operator bool` is false on the default envelope, true on
`MakeOptional` of it, and true on the envelope built from any scalar or boolean
value (the scalar 0 and the boolean `false` included); and it is true for every
envelope `e` with a non-zero marker and for every envelope `e` whose depth
counter is non-zero. -/
theorem truthiness (T : EPrim) (v : Int) (b : Bool) (e : TBlockItem) :
    TBlockItem.ctor.toBool = false ∧
    TBlockItem.ctor.MakeOptional.toBool = true ∧
    (TBlockItem.ctorPrim T v).toBool = true ∧
    (TBlockItem.ctorBool b).toBool = true ∧
    (TRaw.Simple.Meta e.Raw ≠ 0 → e.toBool = true) ∧
    (TRaw.Simple.Meta e.Raw = 0 → TRaw.Simple.Count e.Raw ≠ 0 → e.toBool = true) := by
  refine ⟨by decide, by decide, ?_, ?_, ?_, ?_⟩
  · rw [TBlockItem.toBool_eq_true_iff, TBlockItem.Meta_eq_high, TBlockItem.ctorPrim_high]
    left; norm_num
  · rw [TBlockItem.toBool_eq_true_iff, TBlockItem.Meta_eq_high, TBlockItem.ctorBool_high]
    left; norm_num
  · intro hm
    exact (TBlockItem.toBool_eq_true_iff e).2 (Or.inl hm)
  · intro _ hc
    exact (TBlockItem.toBool_eq_true_iff e).2 (Or.inr hc)

/-- C9 at the scalar 0, the boolean `false` and the absent envelope of depth 3. -/
theorem truthiness_witness :
    (TBlockItem.ctorPrim .ui8 0).toBool = true ∧
    (TBlockItem.ctorBool false).toBool = true ∧
    (makeOptionalN 3 TBlockItem.ctor).toBool = true :=
  ⟨(truthiness .ui8 0 false (makeOptionalN 3 TBlockItem.ctor)).2.2.1,
   (truthiness .ui8 0 false (makeOptionalN 3 TBlockItem.ctor)).2.2.2.1,
   (truthiness .ui8 0 false (makeOptionalN 3 TBlockItem.ctor)).2.2.2.2.2 (by decide)
     (by decide)⟩

/-- C10, as stated, fails on raw halves with a non-zero reserved byte: the
envelope built from `(0, 1)` has `High = 1`, yet its marker byte and its counter
are both zero, so `operator bool` is false. -/
theorem truthiness_zero_counterexample :
    (TBlockItem.ctorHalfs 0 1).toBool = false ∧
    (TBlockItem.ctorHalfs 0 1).Low = 0 ∧ (TBlockItem.ctorHalfs 0 1).High = 1 := by
  decide

/-- C10, amended.  For every envelope `e`, `operator bool` is false if and only
if `Low` is zero and the marker byte, the top byte of `High`, is zero
(`High < 2 ^ 56`): the seven reserved bytes below the marker are not looked at.
Hence for every envelope whose reserved bytes are zero, `operator bool` is false
if and only if both `Low` and `High` are zero. -/
theorem truthiness_zero (e : TBlockItem) :
    (e.toBool = false ↔ e.Low = 0 ∧ e.High < 2 ^ 56) ∧
    (TRaw.Simple.Reserved e.Raw = 0 → (e.toBool = false ↔ e.Low = 0 ∧ e.High = 0)) := by
  have h1 := e.High_lt
  have hres : TRaw.Simple.Reserved e.Raw = e.High % 2 ^ 56 := by
    simp only [TRaw.Simple.Reserved, readBytes, TBlockItem.High]
    norm_num
  rw [TBlockItem.toBool_eq_false_iff, TBlockItem.Meta_eq_high, TBlockItem.Count_eq_low, hres]
  constructor
  · constructor
    · rintro ⟨hm, hc⟩; exact ⟨hc, by omega⟩
    · rintro ⟨hc, hm⟩; exact ⟨by omega, hc⟩
  · intro hr
    constructor
    · rintro ⟨hm, hc⟩; exact ⟨hc, by omega⟩
    · rintro ⟨hc, hm⟩; exact ⟨by omega, hc⟩

/-- C10, amended, at the default envelope, whose reserved bytes are zero. -/
theorem truthiness_zero_witness :
    TRaw.Simple.Reserved TBlockItem.ctor.Raw = 0 ∧
    (TBlockItem.ctor.toBool = false ↔ TBlockItem.ctor.Low = 0 ∧ TBlockItem.ctor.High = 0) :=
  ⟨by decide, (truthiness_zero TBlockItem.ctor).2 (by decide)⟩

/-! ## Preconditions: claims C11, C12 -/

theorem TBlockItem.assert_absent (e : TBlockItem) (h : e.High / 2 ^ 56 ≠ 1) :
    Y_DEBUG_ABORT_UNLESS true (e.Raw.GetMarkers == EMarkers.Present) = none := by
  have hne : e.Raw.GetMarkers ≠ EMarkers.Present := by
    intro hp
    apply h
    rw [← TBlockItem.Meta_eq_high]
    exact congrArg EMarkers.val hp
  have hb : (e.Raw.GetMarkers == EMarkers.Present) = false := by
    rw [beq_eq_false_iff_ne]
    exact hne
  rw [hb]
  rfl

theorem TBlockItem.GetOptionalValue_count (debug : Bool) (a : TBlockItem)
    (hm : TRaw.Simple.Meta a.Raw = 0) (hc : 0 < a.Low) :
    ∃ r, a.GetOptionalValue debug = some r ∧ r.Low = a.Low - 1 ∧ r.High = a.High := by
  have h0 := a.Low_lt
  have h1 := a.High_lt
  have hne : ¬ a.Low = 0 := by omega
  refine ⟨_, TBlockItem.GetOptionalValue_absent debug a hm (Or.inl hc), ?_, ?_⟩
  · rw [if_neg hne, TBlockItem.ctorHalfs_low]
    omega
  · rw [TBlockItem.ctorHalfs_high]
    omega

/-- C11.  Depth-0 unwrap violation: in a debug build `GetOptionalValue` aborts if
and only if the marker byte of the envelope is zero and its depth counter is
zero; in particular it aborts on the default envelope, it returns every present
envelope unchanged, and on every absent envelope with counter `> 0` it returns
an envelope with the counter decremented by one (and the same high word). -/
theorem depth0_unwrap_violation (e : TBlockItem) :
    (e.GetOptionalValue true = none ↔
      TRaw.Simple.Meta e.Raw = 0 ∧ TRaw.Simple.Count e.Raw = 0) ∧
    TBlockItem.ctor.GetOptionalValue true = none ∧
    (TRaw.Simple.Meta e.Raw ≠ 0 → e.GetOptionalValue true = some e) ∧
    (TRaw.Simple.Meta e.Raw = 0 → 0 < TRaw.Simple.Count e.Raw →
      ∃ r, e.GetOptionalValue true = some r ∧
        TRaw.Simple.Count r.Raw = TRaw.Simple.Count e.Raw - 1 ∧ r.High = e.High) := by
  rw [TBlockItem.Count_eq_low]
  refine ⟨?_, TBlockItem.GetOptionalValue_abort _ (by decide) rfl,
    fun hm => TBlockItem.GetOptionalValue_present true e hm, ?_⟩
  · constructor
    · intro hnone
      by_cases hm : TRaw.Simple.Meta e.Raw = 0
      · refine ⟨hm, ?_⟩
        by_contra hc
        obtain ⟨r, hr, _⟩ := TBlockItem.GetOptionalValue_count true e hm (by omega)
        rw [hr] at hnone
        exact Option.some_ne_none r hnone
      · rw [TBlockItem.GetOptionalValue_present true e hm] at hnone
        exact absurd hnone (Option.some_ne_none e)
    · rintro ⟨hm, hc⟩
      exact TBlockItem.GetOptionalValue_abort e hm hc
  · intro hm hc
    obtain ⟨r, hr, hl, hh⟩ := TBlockItem.GetOptionalValue_count true e hm hc
    exact ⟨r, hr, by rw [TBlockItem.Count_eq_low, hl], hh⟩

/-- C11 at the absent envelope of depth 3 in a debug build: the result has
depth 2. -/
theorem depth0_unwrap_violation_witness :
    TBlockItem.ctor.GetOptionalValue true = none ∧
    (TBlockItem.ctorHalfs 3 0).GetOptionalValue true = some (TBlockItem.ctorHalfs 2 0) ∧
    ∃ r, (TBlockItem.ctorHalfs 3 0).GetOptionalValue true = some r ∧
      TRaw.Simple.Count r.Raw = TRaw.Simple.Count (TBlockItem.ctorHalfs 3 0).Raw - 1 ∧
      r.High = (TBlockItem.ctorHalfs 3 0).High :=
  ⟨(depth0_unwrap_violation (TBlockItem.ctorHalfs 3 0)).2.1, by decide,
   (depth0_unwrap_violation (TBlockItem.ctorHalfs 3 0)).2.2.2 (by decide) (by decide)⟩

theorem TBlockItem.ctor_high_div (U : EPrim) (v : Int) (b : Bool) (s : TStringRef) (p : Nat)
    (e : TBlockItem)
    (he : e = TBlockItem.ctorPrim U v ∨ e = TBlockItem.ctorBool b ∨
      e = TBlockItem.ctorString s ∨ e = TBlockItem.ctorTuple p) :
    e.High / 2 ^ 56 = 1 := by
  rcases he with he | he | he | he
  · rw [he, TBlockItem.ctorPrim_high]; norm_num
  · rw [he, TBlockItem.ctorBool_high]; norm_num
  · rw [he, TBlockItem.ctorString_high]; omega
  · rw [he, TBlockItem.ctorTuple_high]; norm_num

/-- C12.  Read-accessor precondition, in a debug build.  On every envelope `e`
built by the scalar, boolean, string or tuple constructor, every sequence `ops`
of `MakeOptional` / `GetOptionalValue` returns `e` itself, and each of `Get<T>`,
`As<T>` (also for `bool`), `AsStringRef`, `AsTuple`, `GetElements` and
`GetElement` passes its assertion; `GetElement` then yields whatever the memory
holds at the addressed place.  On every envelope `a` whose marker byte is zero,
such as the default envelope after `n` applications of `MakeOptional`, each of
them aborts. -/
theorem read_accessor_precondition (mem : Mem) (T U : EPrim) (v : Int) (b : Bool)
    (s : TStringRef) (p n i : Nat) (ops : List CodecOp) (e a : TBlockItem)
    (he : e = TBlockItem.ctorPrim U v ∨ e = TBlockItem.ctorBool b ∨
      e = TBlockItem.ctorString s ∨ e = TBlockItem.ctorTuple p)
    (ha : TRaw.Simple.Meta a.Raw = 0) :
    (runCodec true ops e = some e ∧
      e.Get true T = some (T.ofBits (TRaw.Simple.prim T e.Raw)) ∧
      e.As true T = some (T.ofBits (TRaw.Simple.prim T e.Raw)) ∧
      e.GetBool true = some (TRaw.Simple.bool_ e.Raw != 0) ∧
      e.AsBool true = some (TRaw.Simple.bool_ e.Raw != 0) ∧
      e.AsStringRef true = some ⟨TRaw.String.Value e.Raw, TRaw.String.Size e.Raw⟩ ∧
      e.AsTuple true = some (TRaw.Tuple.Value e.Raw) ∧
      e.GetElements true = some (TRaw.Tuple.Value e.Raw) ∧
      e.GetElement mem true i = mem (TRaw.Tuple.Value e.Raw + 16 * (i % 2 ^ 32))) ∧
    (a.Get true T = none ∧ a.As true T = none ∧ a.GetBool true = none ∧
      a.AsBool true = none ∧ a.AsStringRef true = none ∧ a.AsTuple true = none ∧
      a.GetElements true = none ∧ a.GetElement mem true i = none) ∧
    TRaw.Simple.Meta (makeOptionalN n TBlockItem.ctor).Raw = 0 := by
  have hhigh := TBlockItem.ctor_high_div U v b s p e he
  have hmeta : TRaw.Simple.Meta e.Raw ≠ 0 := by
    rw [TBlockItem.Meta_eq_high, hhigh]; decide
  have hok := TBlockItem.assert_present true e hhigh
  have hbad : Y_DEBUG_ABORT_UNLESS true (a.Raw.GetMarkers == EMarkers.Present) = none := by
    apply TBlockItem.assert_absent
    rw [← TBlockItem.Meta_eq_high, ha]; decide
  refine ⟨⟨runCodec_present true e hmeta ops, ?_, ?_, ?_, ?_, ?_, ?_, ?_, ?_⟩,
    ⟨?_, ?_, ?_, ?_, ?_, ?_, ?_, ?_⟩, ?_⟩
  · unfold TBlockItem.Get; rw [hok]; rfl
  · unfold TBlockItem.As; rw [hok]; rfl
  · unfold TBlockItem.GetBool; rw [hok]; rfl
  · unfold TBlockItem.AsBool; rw [hok]; rfl
  · unfold TBlockItem.AsStringRef; rw [hok]; rfl
  · unfold TBlockItem.AsTuple; rw [hok]; rfl
  · unfold TBlockItem.GetElements; rw [hok]; rfl
  · unfold TBlockItem.GetElement; rw [hok]; rfl
  · unfold TBlockItem.Get; rw [hbad]; rfl
  · unfold TBlockItem.As; rw [hbad]; rfl
  · unfold TBlockItem.GetBool; rw [hbad]; rfl
  · unfold TBlockItem.AsBool; rw [hbad]; rfl
  · unfold TBlockItem.AsStringRef; rw [hbad]; rfl
  · unfold TBlockItem.AsTuple; rw [hbad]; rfl
  · unfold TBlockItem.GetElements; rw [hbad]; rfl
  · unfold TBlockItem.GetElement; rw [hbad]; rfl
  · rw [makeOptionalN_ctor, TBlockItem.ctorHalfs_meta]; norm_num

/-- C12 at the envelope of the string "hello" and at the absent envelope of
depth 2, in a debug build. -/
theorem read_accessor_precondition_witness :
    (TBlockItem.ctorString ⟨4096, 5⟩).AsStringRef true
      = some ⟨TRaw.String.Value (TBlockItem.ctorString ⟨4096, 5⟩).Raw,
          TRaw.String.Size (TBlockItem.ctorString ⟨4096, 5⟩).Raw⟩ ∧
    (makeOptionalN 2 TBlockItem.ctor).Get true .i32 = none ∧
    (makeOptionalN 2 TBlockItem.ctor).AsStringRef true = none :=
  have h := read_accessor_precondition exampleMem .i32 .i32 0 false ⟨4096, 5⟩ 0 2 0 []
    (TBlockItem.ctorString ⟨4096, 5⟩) (makeOptionalN 2 TBlockItem.ctor)
    (Or.inr (Or.inr (Or.inl rfl))) (by decide)
  ⟨h.1.2.2.2.2.2.1, h.2.1.1, h.2.1.2.2.2.2.1⟩

/-! ## Boolean variant and depth counter: claims C13, C14 -/

theorem TBlockItem.bool_eq_low (e : TBlockItem) :
    TRaw.Simple.bool_ e.Raw = e.Low % 2 ^ 8 := by
  simp only [TRaw.Simple.bool_, readBytes, TBlockItem.Low]
  norm_num

theorem TBlockItem.ctorBool_payload (b : Bool) :
    TRaw.Simple.bool_ (TBlockItem.ctorBool b).Raw = if b then 1 else 0 := by
  rw [TBlockItem.bool_eq_low, TBlockItem.ctorBool_low]
  cases b <;> rfl

/-- C13.  Boolean variant: for every boolean `b`, the boolean constructor stores
payload byte exactly 1 for `true` and 0 for `false`, so that `Low` is 1 or 0,
with the marker set to `Present`; and `Get<bool>` and `As<bool>` on that
envelope pass their assertion in every build and return `b`. -/
theorem bool_variant (debug : Bool) (b : Bool) :
    TRaw.Simple.bool_ (TBlockItem.ctorBool b).Raw = (if b then 1 else 0) ∧
    (TBlockItem.ctorBool b).Low = (if b then 1 else 0) ∧
    (TBlockItem.ctorBool b).Raw.GetMarkers = EMarkers.Present ∧
    (TBlockItem.ctorBool b).GetBool debug = some b ∧
    (TBlockItem.ctorBool b).AsBool debug = some b := by
  have hhigh : (TBlockItem.ctorBool b).High / 2 ^ 56 = 1 := by
    rw [TBlockItem.ctorBool_high]; norm_num
  have hok := TBlockItem.assert_present debug (TBlockItem.ctorBool b) hhigh
  have hval : (TRaw.Simple.bool_ (TBlockItem.ctorBool b).Raw != 0) = b := by
    rw [TBlockItem.ctorBool_payload]
    cases b <;> rfl
  refine ⟨TBlockItem.ctorBool_payload b, TBlockItem.ctorBool_low b, ?_, ?_, ?_⟩
  · unfold TRaw.GetMarkers EMarkers.Present
    rw [TBlockItem.Meta_eq_high, hhigh]
  · unfold TBlockItem.GetBool
    rw [hok, hval]; rfl
  · unfold TBlockItem.AsBool
    rw [hok, hval]; rfl

/-- C14.  Depth counter value: for every `n < 2 ^ 64`, applying `MakeOptional`
`n` times to the default envelope yields the envelope whose depth counter is
`n`, with `Low = n` and `High = 0`; for `n = 0` this is the default envelope,
both of whose words are zero; for `n = 3` the counter is 3 and `operator bool`
is true; and absent states of different depths `m ≠ n` below `2 ^ 64` are
different envelopes. -/
theorem depth_counter_value (n m : Nat) (hn : n < 2 ^ 64) (hm : m < 2 ^ 64) :
    (makeOptionalN n TBlockItem.ctor).Low = n ∧
    (makeOptionalN n TBlockItem.ctor).High = 0 ∧
    TRaw.Simple.Count (makeOptionalN n TBlockItem.ctor).Raw = n ∧
    makeOptionalN 0 TBlockItem.ctor = TBlockItem.ctor ∧
    TBlockItem.ctor.Low = 0 ∧ TBlockItem.ctor.High = 0 ∧
    TRaw.Simple.Count (makeOptionalN 3 TBlockItem.ctor).Raw = 3 ∧
    (makeOptionalN 3 TBlockItem.ctor).toBool = true ∧
    (m ≠ n → makeOptionalN m TBlockItem.ctor ≠ makeOptionalN n TBlockItem.ctor) := by
  have hlow : (makeOptionalN n TBlockItem.ctor).Low = n := by
    rw [makeOptionalN_ctor, TBlockItem.ctorHalfs_low, Nat.mod_eq_of_lt hn]
  have hlowm : (makeOptionalN m TBlockItem.ctor).Low = m := by
    rw [makeOptionalN_ctor, TBlockItem.ctorHalfs_low, Nat.mod_eq_of_lt hm]
  refine ⟨hlow, ?_, ?_, rfl, rfl, rfl, by decide, by decide, ?_⟩
  · rw [makeOptionalN_ctor, TBlockItem.ctorHalfs_high, Nat.zero_mod]
  · rw [TBlockItem.Count_eq_low, hlow]
  · intro hne heq
    apply hne
    rw [← hlowm, ← hlow, heq]

/-- C14 at depths 3 and 4. -/
theorem depth_counter_value_witness :
    (makeOptionalN 3 TBlockItem.ctor).Low = 3 ∧
    (makeOptionalN 3 TBlockItem.ctor).High = 0 ∧
    makeOptionalN 4 TBlockItem.ctor ≠ makeOptionalN 3 TBlockItem.ctor :=
  have h := depth_counter_value 3 4 (by decide) (by decide)
  ⟨h.1, h.2.1, h.2.2.2.2.2.2.2.2 (by decide)⟩

/-! ## The sixteen bytes of an envelope -/

theorem word_eq_of_bytes (a b : Nat) (ha : a < 2 ^ 64) (hb : b < 2 ^ 64)
    (h : ∀ k, k < 8 → readBytes a k 1 = readBytes b k 1) : a = b := by
  have h0 := h 0 (by decide)
  have h1 := h 1 (by decide)
  have h2 := h 2 (by decide)
  have h3 := h 3 (by decide)
  have h4 := h 4 (by decide)
  have h5 := h 5 (by decide)
  have h6 := h 6 (by decide)
  have h7 := h 7 (by decide)
  simp only [readBytes] at h0 h1 h2 h3 h4 h5 h6 h7
  norm_num at h0 h1 h2 h3 h4 h5 h6 h7 ha hb
  omega

theorem TBlockItem.eq_of_bytes (e1 e2 : TBlockItem)
    (h : ∀ k, k < 16 → e1.byte k = e2.byte k) : e1 = e2 := by
  apply TBlockItem.eq_of_low_high
  · apply word_eq_of_bytes _ _ e1.Low_lt e2.Low_lt
    intro k hk
    have hk2 := h k (by omega)
    unfold TBlockItem.byte at hk2
    rw [if_pos hk, if_pos hk] at hk2
    exact hk2
  · apply word_eq_of_bytes _ _ e1.High_lt e2.High_lt
    intro k hk
    have hk2 := h (k + 8) (by omega)
    unfold TBlockItem.byte at hk2
    rw [if_neg (by omega), if_neg (by omega), Nat.add_sub_cancel] at hk2
    exact hk2

/-! ## Layout and equivalent accessors: claims C15, C16, C17 -/

/-- C15, as stated, fails on the envelope of the string "hello" at address
4096: its marker is `Present`, yet the most significant byte of `Low` is zero
and the marker is the most significant byte of `High` (byte 15); and the
pointer 4096 is the low word, the high word holding the length 5 below the
marker. -/
theorem binary_layout_counterexample :
    TRaw.Simple.Meta (TBlockItem.ctorString ⟨4096, 5⟩).Raw = 1 ∧
    (TBlockItem.ctorString ⟨4096, 5⟩).Low / 2 ^ 56 = 0 ∧
    (TBlockItem.ctorString ⟨4096, 5⟩).High / 2 ^ 56 = 1 ∧
    (TBlockItem.ctorString ⟨4096, 5⟩).Low = 4096 ∧
    (TBlockItem.ctorString ⟨4096, 5⟩).High = 5 + 2 ^ 56 ∧
    (TBlockItem.ctorTuple 4096).Low = 4096 ∧
    (TBlockItem.ctorTuple 4096).High = 2 ^ 56 := by
  decide

/-- C15, amended.  Binary layout (little-endian target): `Simple` places its
payload union at offset 0 and its marker union at offset 8, `Meta` follows the
seven `Reserved` bytes, so the one-byte marker is byte 15 of the envelope, the
most significant byte of `High`; `String` places its pointer at offset 0 and
its size at offset 8.  Hence for every envelope the low word `Low` holds the
primitive and boolean payload, the depth counter, the string pointer and the
tuple pointer, and the high word `High` holds the 32-bit string length in its
low four bytes and the marker in its top byte. -/
theorem binary_layout (T : EPrim) (e : TBlockItem) :
    Layout.structOffsets TRaw.Simple.members 0 = [0, 8] ∧
    Layout.structOffsets TRaw.Simple.markerMembers 0 = [0, 7] ∧
    Layout.structOffsets TRaw.String.members 0 = [0, 8] ∧
    Layout.structOffsets TRaw.Tuple.members 0 = [0] ∧
    TRaw.Simple.Meta e.Raw = e.byte 15 ∧
    TRaw.Simple.Meta e.Raw = e.High / 2 ^ 56 ∧
    TRaw.Simple.prim T e.Raw = e.Low % 2 ^ (8 * T.size) ∧
    TRaw.Simple.bool_ e.Raw = e.Low % 2 ^ 8 ∧
    TRaw.Simple.Count e.Raw = e.Low ∧
    TRaw.String.Value e.Raw = e.Low ∧
    TRaw.Tuple.Value e.Raw = e.Low ∧
    TRaw.String.Size e.Raw = e.High % 2 ^ 32 :=
  ⟨by decide, by decide, by decide, by decide, rfl, TBlockItem.Meta_eq_high e,
   TBlockItem.prim_eq T e, TBlockItem.bool_eq_low e, TBlockItem.Count_eq_low e,
   TBlockItem.stringValue_eq_low e, TBlockItem.tupleValue_eq_low e,
   TBlockItem.stringSize_eq_high e⟩

/-- C16.  `As` / `Get` equivalence: for every primitive scalar type `T`, for
`bool`, every envelope `e` and either build, `As<T>` and `Get<T>` check the same
precondition and return the same value (both abort, or both return the same
result); likewise `AsTuple` and `GetElements`. -/
theorem as_get_equivalence (debug : Bool) (T : EPrim) (e : TBlockItem) :
    e.As debug T = e.Get debug T ∧
    e.AsBool debug = e.GetBool debug ∧
    e.AsTuple debug = e.GetElements debug :=
  ⟨rfl, rfl, rfl⟩

/-- C17.  Envelope size invariant: the union `TRaw` occupies exactly 16 bytes.
Its member `Halfs` is 16 bytes; `Simple` is the 8-byte payload union followed by
the 8-byte pad-with-marker union, 16 bytes; `String` is the 8-byte pointer and
the 32-bit size, 12 bytes padded to 16; `Tuple` is the 8-byte pointer; every
member fits in 16 bytes and every primitive scalar type in the 8-byte
payload.  Accordingly two envelopes of any variant that agree on their bytes
0..15 are the same envelope. -/
theorem envelope_size (T : EPrim) (e1 e2 : TBlockItem) :
    TRaw.layout.size = 16 ∧
    TRaw.Halfs.layout.size = 16 ∧
    (Layout.structOf TRaw.Simple.members).size = 16 ∧
    (Layout.unionOf TRaw.Simple.payloadMembers).size = 8 ∧
    (Layout.unionOf [Layout.scalar 8, Layout.structOf TRaw.Simple.markerMembers]).size = 8 ∧
    Layout.structEnd TRaw.String.members 0 = 12 ∧
    (Layout.structOf TRaw.String.members).size = 16 ∧
    (Layout.structOf TRaw.Tuple.members).size = 8 ∧
    (∀ m ∈ TRaw.members, m.size ≤ 16) ∧
    T ∈ EPrim.all ∧ T.size ≤ 8 ∧
    ((∀ k, k < 16 → e1.byte k = e2.byte k) → e1 = e2) := by
  refine ⟨by decide, by decide, by decide, by decide, by decide, by decide, by decide,
    by decide, by decide, ?_, ?_, TBlockItem.eq_of_bytes e1 e2⟩
  · cases T <;> decide
  · cases T <;> decide

/-! ## Bit patterns, frame and presence tests: claims C18, C19, C20 -/

theorem TBlockItem.Reserved_eq_high (e : TBlockItem) :
    TRaw.Simple.Reserved e.Raw = e.High % 2 ^ 56 := by
  simp only [TRaw.Simple.Reserved, readBytes, TBlockItem.High]
  norm_num

theorem TBlockItem.MakeOptional_high (e : TBlockItem) : e.MakeOptional.High = e.High := by
  by_cases hm : TRaw.Simple.Meta e.Raw = 0
  · rw [TBlockItem.MakeOptional_absent e hm, TBlockItem.ctorHalfs_high]
    exact Nat.mod_eq_of_lt e.High_lt
  · rw [TBlockItem.MakeOptional_present e hm]

theorem TBlockItem.GetOptionalValue_frame (debug : Bool) (e : TBlockItem)
    (h : TRaw.Simple.Meta e.Raw ≠ 0 ∨ 0 < TRaw.Simple.Count e.Raw ∨ debug = false) :
    ∃ r, e.GetOptionalValue debug = some r ∧ r.High = e.High ∧
      (TRaw.Simple.Meta e.Raw = 0 → (r.Low + 1) % 2 ^ 64 = e.Low) ∧
      (TRaw.Simple.Meta e.Raw ≠ 0 → r = e) := by
  have h0 := e.Low_lt
  have h1 := e.High_lt
  by_cases hm : TRaw.Simple.Meta e.Raw = 0
  · have hc : 0 < e.Low ∨ debug = false := by
      rw [TBlockItem.Count_eq_low] at h
      rcases h with h | h | h
      · exact absurd hm h
      · exact Or.inl h
      · exact Or.inr h
    refine ⟨_, TBlockItem.GetOptionalValue_absent debug e hm hc, ?_, ?_, ?_⟩
    · rw [TBlockItem.ctorHalfs_high]
      exact Nat.mod_eq_of_lt h1
    · intro _
      rw [TBlockItem.ctorHalfs_low]
      split_ifs <;> omega
    · intro hne
      exact absurd hm hne
  · exact ⟨e, TBlockItem.GetOptionalValue_present debug e hm, rfl,
      fun h0 => absurd h0 hm, fun _ => rfl⟩

/-- C18.  Canonical bit patterns (little-endian target): for every scalar type
`T` and value `v` the scalar constructor yields `Low` equal to the
`sizeof(T)`-byte object representation of `v`, zero-extended, and
`High = 2 ^ 56`; the boolean constructor yields `Low` 1 or 0 and
`High = 2 ^ 56`; the string constructor from the pointer `p` and the length `n`
yields `Low = p` and `High = n + 2 ^ 56`; the tuple constructor from the
pointer `p` yields `Low = p` and `High = 2 ^ 56`.  All unused bytes are zero,
and the words depend on nothing but the constructor's argument. -/
theorem canonical_bit_patterns (T : EPrim) (v : Int) (b : Bool) (s : TStringRef) (p : Nat)
    (hd : s.Data < 2 ^ 64) (hs : s.Size < 2 ^ 32) (hp : p < 2 ^ 64) :
    (TBlockItem.ctorPrim T v).Low = T.toBits v ∧
    T.toBits v < 2 ^ (8 * T.size) ∧
    (TBlockItem.ctorPrim T v).High = 2 ^ 56 ∧
    (TBlockItem.ctorBool b).Low = (if b then 1 else 0) ∧
    (TBlockItem.ctorBool b).High = 2 ^ 56 ∧
    (TBlockItem.ctorString s).Low = s.Data ∧
    (TBlockItem.ctorString s).High = s.Size + 2 ^ 56 ∧
    (TBlockItem.ctorTuple p).Low = p ∧
    (TBlockItem.ctorTuple p).High = 2 ^ 56 := by
  refine ⟨TBlockItem.ctorPrim_low T v, T.toBits_lt v, TBlockItem.ctorPrim_high T v,
    TBlockItem.ctorBool_low b, TBlockItem.ctorBool_high b, ?_, ?_, ?_,
    TBlockItem.ctorTuple_high p⟩
  · rw [TBlockItem.ctorString_low, Nat.mod_eq_of_lt hd]
  · rw [TBlockItem.ctorString_high, Nat.mod_eq_of_lt hs]
  · rw [TBlockItem.ctorTuple_low, Nat.mod_eq_of_lt hp]

/-- C18 at the 8-bit integer -1, the string "hello" at address 4096 and the
tuple pointer 4096. -/
theorem canonical_bit_patterns_witness :
    (TBlockItem.ctorPrim .i8 (-1)).Low = 255 ∧
    (TBlockItem.ctorPrim .i8 (-1)).High = 2 ^ 56 ∧
    (TBlockItem.ctorString ⟨4096, 5⟩).Low = 4096 ∧
    (TBlockItem.ctorString ⟨4096, 5⟩).High = 5 + 2 ^ 56 ∧
    (TBlockItem.ctorTuple 4096).Low = 4096 :=
  have h := canonical_bit_patterns .i8 (-1) true ⟨4096, 5⟩ 4096 (by decide) (by decide)
    (by decide)
  ⟨h.1, h.2.2.1, h.2.2.2.2.2.1, h.2.2.2.2.2.2.1, h.2.2.2.2.2.2.2.1⟩

/-- C19.  Frame of the optional codec: for every envelope `e`, `MakeOptional e`
has the same `High` as `e`, hence the same marker byte and reserved bytes, and
its `Low` is `e.Low + 1` modulo `2 ^ 64` on the absent branch and `e.Low` on the
present branch.  `GetOptionalValue e` returns a result whenever the marker is
non-zero, the counter is positive or the assertions are compiled out; the
result has the same `High`, marker byte and reserved bytes as `e`, its `Low` is
`e.Low - 1` modulo `2 ^ 64` on the absent branch, and it is `e` on the present
branch. -/
theorem codec_frame (debug : Bool) (e : TBlockItem) :
    e.MakeOptional.High = e.High ∧
    TRaw.Simple.Meta e.MakeOptional.Raw = TRaw.Simple.Meta e.Raw ∧
    TRaw.Simple.Reserved e.MakeOptional.Raw = TRaw.Simple.Reserved e.Raw ∧
    (TRaw.Simple.Meta e.Raw = 0 → e.MakeOptional.Low = (e.Low + 1) % 2 ^ 64) ∧
    (TRaw.Simple.Meta e.Raw ≠ 0 → e.MakeOptional.Low = e.Low) ∧
    ((TRaw.Simple.Meta e.Raw ≠ 0 ∨ 0 < TRaw.Simple.Count e.Raw ∨ debug = false) →
      ∃ r, e.GetOptionalValue debug = some r ∧ r.High = e.High ∧
        TRaw.Simple.Meta r.Raw = TRaw.Simple.Meta e.Raw ∧
        TRaw.Simple.Reserved r.Raw = TRaw.Simple.Reserved e.Raw ∧
        (TRaw.Simple.Meta e.Raw = 0 → (r.Low + 1) % 2 ^ 64 = e.Low) ∧
        (TRaw.Simple.Meta e.Raw ≠ 0 → r = e)) := by
  have hhigh := TBlockItem.MakeOptional_high e
  refine ⟨hhigh, ?_, ?_, ?_, ?_, ?_⟩
  · rw [TBlockItem.Meta_eq_high, TBlockItem.Meta_eq_high, hhigh]
  · rw [TBlockItem.Reserved_eq_high, TBlockItem.Reserved_eq_high, hhigh]
  · intro hm
    rw [TBlockItem.MakeOptional_absent e hm, TBlockItem.ctorHalfs_low, Nat.mod_mod]
  · intro hm
    rw [TBlockItem.MakeOptional_present e hm]
  · intro h
    obtain ⟨r, hr, hh, hl, hp⟩ := TBlockItem.GetOptionalValue_frame debug e h
    refine ⟨r, hr, hh, ?_, ?_, hl, hp⟩
    · rw [TBlockItem.Meta_eq_high, TBlockItem.Meta_eq_high, hh]
    · rw [TBlockItem.Reserved_eq_high, TBlockItem.Reserved_eq_high, hh]

/-- C19 at the absent envelope of depth 0 with the assertions compiled out (the
counter wraps to `2 ^ 64 - 1`, the high word stays zero) and at depth 3 in a
debug build. -/
theorem codec_frame_witness :
    TBlockItem.ctor.GetOptionalValue false = some (TBlockItem.ctorHalfs (2 ^ 64 - 1) 0) ∧
    (∃ r, TBlockItem.ctor.GetOptionalValue false = some r ∧ r.High = TBlockItem.ctor.High) ∧
    (∃ r, (TBlockItem.ctorHalfs 3 0).GetOptionalValue true = some r ∧
      r.High = (TBlockItem.ctorHalfs 3 0).High) :=
  ⟨by decide,
   (fun ⟨r, hr, hh, _⟩ => ⟨r, hr, hh⟩)
     ((codec_frame false TBlockItem.ctor).2.2.2.2.2 (Or.inr (Or.inr rfl))),
   (fun ⟨r, hr, hh, _⟩ => ⟨r, hr, hh⟩)
     ((codec_frame true (TBlockItem.ctorHalfs 3 0)).2.2.2.2.2 (Or.inr (Or.inl (by decide))))⟩

theorem TBlockItem.assert_debug_eq (e : TBlockItem) :
    Y_DEBUG_ABORT_UNLESS true (e.Raw.GetMarkers == EMarkers.Present)
      = if TRaw.Simple.Meta e.Raw = 1 then some () else none := by
  by_cases h : TRaw.Simple.Meta e.Raw = 1
  · rw [if_pos h]
    exact TBlockItem.assert_present true e (by rw [← TBlockItem.Meta_eq_high]; exact h)
  · rw [if_neg h]
    exact TBlockItem.assert_absent e (by rw [← TBlockItem.Meta_eq_high]; exact h)

theorem TBlockItem.Get_debug_eq (T : EPrim) (e : TBlockItem) :
    e.Get true T = if TRaw.Simple.Meta e.Raw = 1
      then some (T.ofBits (TRaw.Simple.prim T e.Raw)) else none := by
  unfold TBlockItem.Get
  rw [TBlockItem.assert_debug_eq]
  split_ifs <;> rfl

theorem TBlockItem.As_debug_eq (T : EPrim) (e : TBlockItem) :
    e.As true T = if TRaw.Simple.Meta e.Raw = 1
      then some (T.ofBits (TRaw.Simple.prim T e.Raw)) else none := by
  unfold TBlockItem.As
  rw [TBlockItem.assert_debug_eq]
  split_ifs <;> rfl

theorem TBlockItem.GetBool_debug_eq (e : TBlockItem) :
    e.GetBool true = if TRaw.Simple.Meta e.Raw = 1
      then some (TRaw.Simple.bool_ e.Raw != 0) else none := by
  unfold TBlockItem.GetBool
  rw [TBlockItem.assert_debug_eq]
  split_ifs <;> rfl

theorem TBlockItem.AsBool_debug_eq (e : TBlockItem) :
    e.AsBool true = if TRaw.Simple.Meta e.Raw = 1
      then some (TRaw.Simple.bool_ e.Raw != 0) else none := by
  unfold TBlockItem.AsBool
  rw [TBlockItem.assert_debug_eq]
  split_ifs <;> rfl

theorem TBlockItem.AsStringRef_debug_eq (e : TBlockItem) :
    e.AsStringRef true = if TRaw.Simple.Meta e.Raw = 1
      then some ⟨TRaw.String.Value e.Raw, TRaw.String.Size e.Raw⟩ else none := by
  unfold TBlockItem.AsStringRef
  rw [TBlockItem.assert_debug_eq]
  split_ifs <;> rfl

theorem TBlockItem.AsTuple_debug_eq (e : TBlockItem) :
    e.AsTuple true = if TRaw.Simple.Meta e.Raw = 1
      then some (TRaw.Tuple.Value e.Raw) else none := by
  unfold TBlockItem.AsTuple
  rw [TBlockItem.assert_debug_eq]
  split_ifs <;> rfl

theorem TBlockItem.GetElements_debug_eq (e : TBlockItem) :
    e.GetElements true = if TRaw.Simple.Meta e.Raw = 1
      then some (TRaw.Tuple.Value e.Raw) else none := by
  unfold TBlockItem.GetElements
  rw [TBlockItem.assert_debug_eq]
  split_ifs <;> rfl

theorem TBlockItem.GetElement_debug_eq (mem : Mem) (e : TBlockItem) (i : Nat) :
    e.GetElement mem true i = if TRaw.Simple.Meta e.Raw = 1
      then mem (TRaw.Tuple.Value e.Raw + 16 * (i % 2 ^ 32)) else none := by
  unfold TBlockItem.GetElement
  rw [TBlockItem.assert_debug_eq]
  split_ifs <;> rfl

theorem TBlockItem.MakeOptional_eq_self_iff (e : TBlockItem) :
    e.MakeOptional = e ↔ TRaw.Simple.Meta e.Raw ≠ 0 := by
  have h0 := e.Low_lt
  constructor
  · intro heq hm
    have hl := congrArg TBlockItem.Low heq
    rw [TBlockItem.MakeOptional_absent e hm, TBlockItem.ctorHalfs_low] at hl
    omega
  · exact TBlockItem.MakeOptional_present e

theorem TBlockItem.GetOptionalValue_eq_self_iff (debug : Bool) (e : TBlockItem) :
    e.GetOptionalValue debug = some e ↔ TRaw.Simple.Meta e.Raw ≠ 0 := by
  have h0 := e.Low_lt
  constructor
  · intro heq hm
    by_cases hc : 0 < e.Low ∨ debug = false
    · rw [TBlockItem.GetOptionalValue_absent debug e hm hc] at heq
      have hl := congrArg TBlockItem.Low (Option.some.inj heq)
      rw [TBlockItem.ctorHalfs_low] at hl
      split_ifs at hl <;> omega
    · have hlow : e.Low = 0 := by
        by_contra hne
        exact hc (Or.inl (by omega))
      have hd : debug = true := by
        cases debug
        · exact absurd (Or.inr rfl) hc
        · rfl
      rw [hd, TBlockItem.GetOptionalValue_abort e hm hlow] at heq
      exact Option.noConfusion heq
  · exact TBlockItem.GetOptionalValue_present debug e

/-- C20, as stated, fails on raw halves whose marker byte is neither 0 nor 1:
the envelope built from `(0, 2 ^ 57)` has marker byte 2, so the optional codec
treats it as present (`MakeOptional` and `GetOptionalValue` return it
unchanged), while the assertion `marker == Present` of the read accessors
fails on it. -/
theorem presence_tests_counterexample :
    TRaw.Simple.Meta (TBlockItem.ctorHalfs 0 (2 ^ 57)).Raw = 2 ∧
    (TBlockItem.ctorHalfs 0 (2 ^ 57)).MakeOptional = TBlockItem.ctorHalfs 0 (2 ^ 57) ∧
    (TBlockItem.ctorHalfs 0 (2 ^ 57)).GetOptionalValue true
      = some (TBlockItem.ctorHalfs 0 (2 ^ 57)) ∧
    ((TBlockItem.ctorHalfs 0 (2 ^ 57)).Raw.GetMarkers == EMarkers.Present) = false ∧
    (TBlockItem.ctorHalfs 0 (2 ^ 57)).Get true .ui8 = none ∧
    (TBlockItem.ctorHalfs 0 (2 ^ 57)).AsStringRef true = none := by
  decide

/-- C20, amended.  For every envelope `e`: the optional codec treats `e` as
present, that is `MakeOptional` returns `e` unchanged and `GetOptionalValue`
returns `e` unchanged, exactly when the marker byte is non-zero; each of
`Get<T>`, `As<T>` (also for `bool`), `AsStringRef`, `AsTuple`, `GetElements`
and `GetElement` passes its assertion in a debug build exactly when the marker
byte is 1.  Hence an envelope on which a read accessor passes is present for
the codec; for every envelope whose marker byte is 0 or 1 the codec treats it
as present if and only if the read accessors pass; and every envelope whose
marker byte is 2 or more is present for the codec while every read accessor
aborts on it. -/
theorem presence_tests (debug : Bool) (mem : Mem) (T : EPrim) (i : Nat) (e : TBlockItem) :
    (e.MakeOptional = e ↔ TRaw.Simple.Meta e.Raw ≠ 0) ∧
    (e.GetOptionalValue debug = some e ↔ TRaw.Simple.Meta e.Raw ≠ 0) ∧
    ((e.Get true T).isSome ↔ TRaw.Simple.Meta e.Raw = 1) ∧
    ((e.As true T).isSome ↔ TRaw.Simple.Meta e.Raw = 1) ∧
    ((e.GetBool true).isSome ↔ TRaw.Simple.Meta e.Raw = 1) ∧
    ((e.AsBool true).isSome ↔ TRaw.Simple.Meta e.Raw = 1) ∧
    ((e.AsStringRef true).isSome ↔ TRaw.Simple.Meta e.Raw = 1) ∧
    ((e.AsTuple true).isSome ↔ TRaw.Simple.Meta e.Raw = 1) ∧
    ((e.GetElements true).isSome ↔ TRaw.Simple.Meta e.Raw = 1) ∧
    (e.GetElement mem true i = if TRaw.Simple.Meta e.Raw = 1
      then mem (TRaw.Tuple.Value e.Raw + 16 * (i % 2 ^ 32)) else none) ∧
    (((e.Get true T).isSome ∨ (e.As true T).isSome ∨ (e.GetBool true).isSome ∨
        (e.AsBool true).isSome ∨ (e.AsStringRef true).isSome ∨ (e.AsTuple true).isSome ∨
        (e.GetElements true).isSome ∨ (e.GetElement mem true i).isSome) →
      e.MakeOptional = e ∧ e.GetOptionalValue debug = some e) ∧
    (TRaw.Simple.Meta e.Raw ≤ 1 →
      (e.MakeOptional = e ↔ e.GetOptionalValue debug = some e) ∧
      (e.MakeOptional = e ↔ (e.Get true T).isSome) ∧
      (e.MakeOptional = e ↔ (e.As true T).isSome) ∧
      (e.MakeOptional = e ↔ (e.GetBool true).isSome) ∧
      (e.MakeOptional = e ↔ (e.AsBool true).isSome) ∧
      (e.MakeOptional = e ↔ (e.AsStringRef true).isSome) ∧
      (e.MakeOptional = e ↔ (e.AsTuple true).isSome) ∧
      (e.MakeOptional = e ↔ (e.GetElements true).isSome) ∧
      (e.MakeOptional = e ↔
        e.GetElement mem true i = mem (TRaw.Tuple.Value e.Raw + 16 * (i % 2 ^ 32)) ∧
        e.GetElement (fun _ => some e) true i = some e)) ∧
    (2 ≤ TRaw.Simple.Meta e.Raw →
      e.MakeOptional = e ∧ e.GetOptionalValue debug = some e ∧
      e.Get true T = none ∧ e.As true T = none ∧ e.GetBool true = none ∧
      e.AsBool true = none ∧ e.AsStringRef true = none ∧ e.AsTuple true = none ∧
      e.GetElements true = none ∧ e.GetElement mem true i = none) := by
  have hmk := TBlockItem.MakeOptional_eq_self_iff e
  have hgo := TBlockItem.GetOptionalValue_eq_self_iff debug e
  have hget : (e.Get true T).isSome ↔ TRaw.Simple.Meta e.Raw = 1 := by
    rw [TBlockItem.Get_debug_eq]; split_ifs with h <;> simp [h]
  have has : (e.As true T).isSome ↔ TRaw.Simple.Meta e.Raw = 1 := by
    rw [TBlockItem.As_debug_eq]; split_ifs with h <;> simp [h]
  have hgb : (e.GetBool true).isSome ↔ TRaw.Simple.Meta e.Raw = 1 := by
    rw [TBlockItem.GetBool_debug_eq]; split_ifs with h <;> simp [h]
  have hab : (e.AsBool true).isSome ↔ TRaw.Simple.Meta e.Raw = 1 := by
    rw [TBlockItem.AsBool_debug_eq]; split_ifs with h <;> simp [h]
  have hsr : (e.AsStringRef true).isSome ↔ TRaw.Simple.Meta e.Raw = 1 := by
    rw [TBlockItem.AsStringRef_debug_eq]; split_ifs with h <;> simp [h]
  have hat : (e.AsTuple true).isSome ↔ TRaw.Simple.Meta e.Raw = 1 := by
    rw [TBlockItem.AsTuple_debug_eq]; split_ifs with h <;> simp [h]
  have hge : (e.GetElements true).isSome ↔ TRaw.Simple.Meta e.Raw = 1 := by
    rw [TBlockItem.GetElements_debug_eq]; split_ifs with h <;> simp [h]
  have hel := TBlockItem.GetElement_debug_eq mem e i
  have helc := TBlockItem.GetElement_debug_eq (fun _ => some e) e i
  have helsome : (e.GetElement mem true i).isSome → TRaw.Simple.Meta e.Raw = 1 := by
    rw [hel]; split_ifs with h
    · exact fun _ => h
    · intro hs; exact absurd hs (by simp)
  have hpres : TRaw.Simple.Meta e.Raw = 1 → TRaw.Simple.Meta e.Raw ≠ 0 := by
    intro h; omega
  refine ⟨hmk, hgo, hget, has, hgb, hab, hsr, hat, hge, hel, ?_, ?_, ?_⟩
  · intro h
    have h1 : TRaw.Simple.Meta e.Raw = 1 := by
      rcases h with h | h | h | h | h | h | h | h
      · exact hget.1 h
      · exact has.1 h
      · exact hgb.1 h
      · exact hab.1 h
      · exact hsr.1 h
      · exact hat.1 h
      · exact hge.1 h
      · exact helsome h
    exact ⟨hmk.2 (hpres h1), hgo.2 (hpres h1)⟩
  · intro hle
    have h01 : TRaw.Simple.Meta e.Raw ≠ 0 ↔ TRaw.Simple.Meta e.Raw = 1 := by
      constructor <;> intro h <;> omega
    refine ⟨hmk.trans hgo.symm, hmk.trans (h01.trans hget.symm),
      hmk.trans (h01.trans has.symm), hmk.trans (h01.trans hgb.symm),
      hmk.trans (h01.trans hab.symm), hmk.trans (h01.trans hsr.symm),
      hmk.trans (h01.trans hat.symm), hmk.trans (h01.trans hge.symm), ?_⟩
    rw [hmk, h01, hel, helc]
    constructor
    · intro h
      rw [if_pos h, if_pos h]
      exact ⟨rfl, rfl⟩
    · rintro ⟨_, h2⟩
      by_contra hne
      rw [if_neg hne] at h2
      exact Option.noConfusion h2
  · intro h2
    have hne1 : ¬ TRaw.Simple.Meta e.Raw = 1 := by omega
    have hne0 : TRaw.Simple.Meta e.Raw ≠ 0 := by omega
    refine ⟨hmk.2 hne0, hgo.2 hne0, ?_, ?_, ?_, ?_, ?_, ?_, ?_, ?_⟩
    · rw [TBlockItem.Get_debug_eq, if_neg hne1]
    · rw [TBlockItem.As_debug_eq, if_neg hne1]
    · rw [TBlockItem.GetBool_debug_eq, if_neg hne1]
    · rw [TBlockItem.AsBool_debug_eq, if_neg hne1]
    · rw [TBlockItem.AsStringRef_debug_eq, if_neg hne1]
    · rw [TBlockItem.AsTuple_debug_eq, if_neg hne1]
    · rw [TBlockItem.GetElements_debug_eq, if_neg hne1]
    · rw [hel, if_neg hne1]

/-- C20, amended, at the envelope of the boolean `true` (marker byte 1), at the
default envelope (marker byte 0) and at the raw halves `(7, 3 * 2 ^ 56)`
(marker byte 3), in a debug build. -/
theorem presence_tests_witness :
    ((TBlockItem.ctorBool true).MakeOptional = TBlockItem.ctorBool true ↔
      ((TBlockItem.ctorBool true).GetBool true).isSome) ∧
    (TBlockItem.ctor.MakeOptional = TBlockItem.ctor ↔
      (TBlockItem.ctor.AsStringRef true).isSome) ∧
    (TBlockItem.ctorHalfs 7 (3 * 2 ^ 56)).MakeOptional = TBlockItem.ctorHalfs 7 (3 * 2 ^ 56) ∧
    (TBlockItem.ctorHalfs 7 (3 * 2 ^ 56)).AsTuple true = none :=
  ⟨((presence_tests true exampleMem .i32 0 (TBlockItem.ctorBool true)).2.2.2.2.2.2.2.2.2.2.2.1
      (by decide)).2.2.2.1,
   ((presence_tests true exampleMem .i32 0 TBlockItem.ctor).2.2.2.2.2.2.2.2.2.2.2.1
      (by decide)).2.2.2.2.2.1,
   ((presence_tests true exampleMem .i32 0 (TBlockItem.ctorHalfs 7 (3 * 2 ^ 56))).2.2.2.2.2.2.2.2.2.2.2.2
      (by decide)).1,
   ((presence_tests true exampleMem .i32 0 (TBlockItem.ctorHalfs 7 (3 * 2 ^ 56))).2.2.2.2.2.2.2.2.2.2.2.2
      (by decide)).2.2.2.2.2.2.2.1⟩

end NYql.NUdf
